import Mathlib

/-!
# Waysome: builtin commands on the value stack, sets, type descriptors, error replies

A shallow embedding of `src/command/arithmetical.c` and `src/command/binary.c`, of the
set interface exercised by `tests/check/objects/ws_set/test.c`, of the type descriptors
of `objects/object.h` and `objects/named.c`, and of the error reply of
`objects/message/error_reply.h`.

* A command receives `union ws_value_union* args`, a pointer to the first slot of a
  none-terminated sequence of tagged values.  The stack is embedded as a
  `List ws_value_union`; a pointer into it is an index.  Reading a slot that the list
  does not have is a read outside the stack and gives no result (`none`).
* A command returns its `int` status together with the stack it leaves behind.
* `intmax_t` is a 64 bit two's-complement integer, embedded as an `Int` in the range
  `INTMAX_MIN .. INTMAX_MAX`.  The compound assignments `+=`, `-=`, `*=` are embedded
  with two's-complement wrap-around (`wrap_intmax`).  The one quotient that does not
  fit, `INTMAX_MIN / -1`, has no result: C leaves it undefined and the division
  instruction faults.
* A set is embedded as the list of its stored object references, a type descriptor as
  its supertype chain, an error reply as a record of its three fields.
-/

namespace Waysome

/-! ## Machine integers and error codes -/

/-- Smallest `intmax_t`, `-2^63`. -/
def INTMAX_MIN : Int := -9223372036854775808

/-- Largest `intmax_t`, `2^63 - 1`. -/
def INTMAX_MAX : Int := 9223372036854775807

/-- The integer is representable as an `intmax_t`. -/
def is_intmax (x : Int) : Prop := INTMAX_MIN ≤ x ∧ x ≤ INTMAX_MAX

instance (x : Int) : Decidable (is_intmax x) := by
  unfold is_intmax; exact inferInstance

/-- Two's-complement reduction of a mathematical integer to `intmax_t`. -/
def wrap_intmax (x : Int) : Int :=
  (x + 9223372036854775808) % 18446744073709551616 - 9223372036854775808

/-- The errno value `EINVAL` (invalid argument) of `<errno.h>`. -/
def EINVAL : Int := 22

/-- The errno value `E2BIG` (argument list too long) of `<errno.h>`. -/
def E2BIG : Int := 7

/-- The errno value `EFAULT` (bad address) of `<errno.h>`. -/
def EFAULT : Int := 14

/-! ## Values -/

/-- Modelled from the spec: the discriminant of a Value (`enum ws_value_type` of
`values/value_type.h`, which is not among the sources): none, bool, int, string and
object reference.  `WS_VALUE_TYPE_NONE` doubles as the argument-list terminator. -/
inductive ws_value_type
  | WS_VALUE_TYPE_NONE
  | WS_VALUE_TYPE_BOOL
  | WS_VALUE_TYPE_INT
  | WS_VALUE_TYPE_STRING
  | WS_VALUE_TYPE_OBJECT_ID
  deriving DecidableEq, Repr

open ws_value_type

/-- Modelled from the spec: a stack slot (`union ws_value_union` of `values/union.h`,
which is not among the sources), a tagged variant holding one typed datum. -/
inductive ws_value_union
  | none_
  | bool_ (b : Bool)
  | int_ (i : Int)
  | string_ (s : String)
  | object_id_ (id : Nat)
  deriving DecidableEq, Repr

open ws_value_union

/-- Modelled from the spec: `ws_value_get_type` of `values/value.h` (not among the
sources) returns the tag of a value. -/
def ws_value_get_type : ws_value_union → ws_value_type
  | none_ => WS_VALUE_TYPE_NONE
  | bool_ _ => WS_VALUE_TYPE_BOOL
  | int_ _ => WS_VALUE_TYPE_INT
  | string_ _ => WS_VALUE_TYPE_STRING
  | object_id_ _ => WS_VALUE_TYPE_OBJECT_ID

/-- Modelled from the spec: `ws_value_int_get` of `values/int.h` (not among the
sources) decodes the payload of an integer value.  The commands call it on slots
whose tag was checked to be int; on another slot the embedding yields 0. -/
def ws_value_int_get : ws_value_union → Int
  | int_ i => i
  | _ => 0

/-- Modelled from the spec: `ws_value_int_set` of `values/int.h` (not among the
sources) stores a payload in an integer value; the tag is left as it is. -/
def ws_value_int_set (self : ws_value_union) (i : Int) : ws_value_union :=
  match self with
  | int_ _ => int_ i
  | other => other

/-- Modelled from the spec: `ws_value_union_reinit` of `values/union.h` (not among the
sources) re-tags a value: the payload of the previous tag is released and a fresh
value of the new tag is installed. -/
def ws_value_union_reinit (_self : ws_value_union) : ws_value_type → ws_value_union
  | WS_VALUE_TYPE_NONE => none_
  | WS_VALUE_TYPE_BOOL => bool_ false
  | WS_VALUE_TYPE_INT => int_ 0
  | WS_VALUE_TYPE_STRING => string_ ""
  | WS_VALUE_TYPE_OBJECT_ID => object_id_ 0

/-- A write through the pointer `args + i`: slot `i` is replaced by `f` of its
content. -/
def slot_update (args : List ws_value_union) (i : Nat)
    (f : ws_value_union → ws_value_union) : List ws_value_union :=
  match args[i]? with
  | some v => args.set i (f v)
  | none => args

/-! ## The iteration protocol of `command/util.h` -/

/-- Modelled from the spec: the loop `ITERATE_ARGS_TYPE(it, args, val, int) { body }`
of `command/util.h` (not among the sources): scan forward while the slot under `it`
has tag int, decoding it into `val` and running the body on the accumulator; stop at
the first slot with another tag.  The first argument holds the slots from `it` on, the
second is the index of `it`; the result is the index at which the scan stopped and the
accumulator.  Running off the stack gives no result. -/
def ITERATE_ARGS_TYPE (body : Int → Int → Int) :
    List ws_value_union → Nat → Int → Option (Nat × Int)
  | [], _, _ => none
  | x :: rest, it, acc =>
    if ws_value_get_type x = WS_VALUE_TYPE_INT then
      ITERATE_ARGS_TYPE body rest (it + 1) (body acc (ws_value_int_get x))
    else
      some (it, acc)

/-- Modelled from the spec: `AT_END(it)` of `command/util.h` (not among the sources)
tells whether the slot under `it` is the none terminator. -/
def AT_END (args : List ws_value_union) (it : Nat) : Option Bool :=
  match args[it]? with
  | some v => some (decide (ws_value_get_type v = WS_VALUE_TYPE_NONE))
  | none => none

/-! ## `src/command/arithmetical.c` -/

/-- The command `add`: an embedding of `ws_builtin_cmd_add`. -/
def ws_builtin_cmd_add (args : List ws_value_union) :
    Option (Int × List ws_value_union) :=
  match ITERATE_ARGS_TYPE (fun sum val => wrap_intmax (sum + val)) args 0 0 with
  | none => none
  | some (it, sum) =>
    match AT_END args it with
    | none => none
    | some false => some (-EINVAL, args)
    | some true =>
      let args1 := slot_update args 0 (fun v => ws_value_union_reinit v WS_VALUE_TYPE_INT)
      some (0, slot_update args1 0 (fun v => ws_value_int_set v sum))

/-- The command `sub`: an embedding of `ws_builtin_cmd_sub`. -/
def ws_builtin_cmd_sub (args : List ws_value_union) :
    Option (Int × List ws_value_union) :=
  match args[0]? with
  | none => none
  | some a0 =>
    if ws_value_get_type a0 ≠ WS_VALUE_TYPE_INT then some (-EINVAL, args)
    else
      match ITERATE_ARGS_TYPE (fun sum val => wrap_intmax (sum - val)) (args.drop 1) 1
          (ws_value_int_get a0) with
      | none => none
      | some (it, sum) =>
        match AT_END args it with
        | none => none
        | some false => some (-EINVAL, args)
        | some true =>
          let args1 :=
            slot_update args 0 (fun v => ws_value_union_reinit v WS_VALUE_TYPE_INT)
          some (0, slot_update args1 0 (fun v => ws_value_int_set v sum))

/-- The command `mul`: an embedding of `ws_builtin_cmd_mul`. -/
def ws_builtin_cmd_mul (args : List ws_value_union) :
    Option (Int × List ws_value_union) :=
  match ITERATE_ARGS_TYPE (fun prod val => wrap_intmax (prod * val)) args 0 1 with
  | none => none
  | some (it, prod) =>
    match AT_END args it with
    | none => none
    | some false => some (-EINVAL, args)
    | some true =>
      let args1 := slot_update args 0 (fun v => ws_value_union_reinit v WS_VALUE_TYPE_INT)
      some (0, slot_update args1 0 (fun v => ws_value_int_set v prod))

/-- The quotient `tmp_dividend / tmp_divisor` of two `intmax_t` for a non-zero
divisor: C division truncates toward zero; the quotient that is not an `intmax_t`
(`INTMAX_MIN / -1`) has no result. -/
def intmax_div (tmp_dividend tmp_divisor : Int) : Option Int :=
  if is_intmax (Int.tdiv tmp_dividend tmp_divisor) then
    some (Int.tdiv tmp_dividend tmp_divisor)
  else none

/-- The command `div`: an embedding of `ws_builtin_cmd_div`.  The `||` of the first
test is short-circuit: slot 1 is read only when slot 0 is an integer. -/
def ws_builtin_cmd_div (args : List ws_value_union) :
    Option (Int × List ws_value_union) :=
  match args[0]? with
  | none => none
  | some a0 =>
    if ws_value_get_type a0 ≠ WS_VALUE_TYPE_INT then some (-EINVAL, args)
    else
      match args[1]? with
      | none => none
      | some a1 =>
        if ws_value_get_type a1 ≠ WS_VALUE_TYPE_INT then some (-EINVAL, args)
        else
          match args[2]? with
          | none => none
          | some a2 =>
            if ws_value_get_type a2 ≠ WS_VALUE_TYPE_NONE then some (-E2BIG, args)
            else
              let tmp_dividend := ws_value_int_get a0
              let tmp_divisor := ws_value_int_get a1
              if tmp_divisor = 0 then some (-EFAULT, args)
              else
                match intmax_div tmp_dividend tmp_divisor with
                | none => none
                | some q => some (0, slot_update args 0 (fun v => ws_value_int_set v q))

/-! ## `src/command/binary.c` -/

/-- The command `bnot`: an embedding of `ws_builtin_cmd_bnot`, whose body is
`return 0`. -/
def ws_builtin_cmd_bnot (args : List ws_value_union) :
    Option (Int × List ws_value_union) :=
  some (0, args)

/-- The command `band`: an embedding of `ws_builtin_cmd_band`, whose body is
`return 0`. -/
def ws_builtin_cmd_band (args : List ws_value_union) :
    Option (Int × List ws_value_union) :=
  some (0, args)

/-- The command `bnand`: an embedding of `ws_builtin_cmd_bnand`, whose body is
`return 0`. -/
def ws_builtin_cmd_bnand (args : List ws_value_union) :
    Option (Int × List ws_value_union) :=
  some (0, args)

/-- The command `bor`: an embedding of `ws_builtin_cmd_bor`, whose body is
`return 0`. -/
def ws_builtin_cmd_bor (args : List ws_value_union) :
    Option (Int × List ws_value_union) :=
  some (0, args)

/-- The command `bnor`: an embedding of `ws_builtin_cmd_bnor`, whose body is
`return 0`. -/
def ws_builtin_cmd_bnor (args : List ws_value_union) :
    Option (Int × List ws_value_union) :=
  some (0, args)

/-- The command `bxor`: an embedding of `ws_builtin_cmd_bxor`, whose body is
`return 0`. -/
def ws_builtin_cmd_bxor (args : List ws_value_union) :
    Option (Int × List ws_value_union) :=
  some (0, args)

/-! ## Sets of objects (`objects/set.h`, exercised by `tests/check/objects/ws_set/test.c`) -/

/-- Modelled from the spec: the outcome of `ws_set_insert` and `ws_set_remove` of
`objects/set.c` (not among the sources).  `success` stands for the return value 0,
`already_present` for the report of an equal element on insert, `not_found` for the
report of a missing element on remove. -/
inductive ws_set_status
  | success
  | already_present
  | not_found
  deriving DecidableEq, Repr

/-- Modelled from the spec: `struct ws_set` of `objects/set.h` (not among the sources),
an unordered collection of object references without two elements that compare equal.
The stored references are kept as a list, oldest first; reference counts and locks are
not represented. -/
structure ws_set (α : Type) where
  elems : List α
  deriving DecidableEq, Repr

/-- Modelled from the spec: `ws_set_new` of `objects/set.c` (not among the sources)
gives the empty set. -/
def ws_set_new {α : Type} : ws_set α := ⟨[]⟩

/-- Modelled from the spec: `ws_set_cardinality` of `objects/set.c` (not among the
sources) gives the element count. -/
def ws_set_cardinality {α : Type} (self : ws_set α) : Nat := self.elems.length

/-- Modelled from the spec: `ws_set_get` of `objects/set.c` (not among the sources)
returns the stored element comparing equal to the key under the compare callback
`cmp` of the element type, or absent. -/
def ws_set_get {α : Type} (cmp : α → α → Int) (self : ws_set α) (cmp_obj : α) :
    Option α :=
  self.elems.find? (fun e => decide (cmp e cmp_obj = 0))

/-- Modelled from the spec: `ws_set_insert` of `objects/set.c` (not among the sources)
adds a reference to the object iff no stored element compares equal to it, and reports
already-present otherwise. -/
def ws_set_insert {α : Type} (cmp : α → α → Int) (self : ws_set α) (obj : α) :
    ws_set_status × ws_set α :=
  match ws_set_get cmp self obj with
  | some _ => (ws_set_status.already_present, self)
  | none => (ws_set_status.success, ⟨self.elems ++ [obj]⟩)

/-- Modelled from the spec: `ws_set_remove` of `objects/set.c` (not among the sources)
removes the stored element comparing equal to the key, and reports not-found if there
is none. -/
def ws_set_remove {α : Type} (cmp : α → α → Int) (self : ws_set α) (cmp_obj : α) :
    ws_set_status × ws_set α :=
  match ws_set_get cmp self cmp_obj with
  | some _ =>
    (ws_set_status.success, ⟨self.elems.eraseP (fun e => decide (cmp e cmp_obj = 0))⟩)
  | none => (ws_set_status.not_found, self)

/-- Modelled from the spec: the linear scan of `ws_set_select` (`objects/set.c`, not
among the sources) over the stored elements. -/
def ws_set_select_scan {α σ : Type} (pred : α → Int) (proc : σ → α → Int × σ) :
    List α → σ → Int × σ
  | [], etc => (0, etc)
  | e :: rest, etc =>
    if pred e ≠ 0 then
      match proc etc e with
      | (res, etc1) =>
        if res < 0 then (res, etc1) else ws_set_select_scan pred proc rest etc1
    else ws_set_select_scan pred proc rest etc

/-- Modelled from the spec: `ws_set_select` of `objects/set.c` (not among the sources):
a linear scan that invokes the processor on each element for which the predicate is
true, aborts and propagates a negative result of the processor, and returns 0
otherwise.  The state behind the processor's `etc` pointer is passed explicitly. -/
def ws_set_select {α σ : Type} (self : ws_set α) (pred : α → Int)
    (proc : σ → α → Int × σ) (etc : σ) : Int × σ :=
  ws_set_select_scan pred proc self.elems etc

/-- Modelled from the spec: `ws_set_is_subset` of `objects/set.c` (not among the
sources): every element of `self` is found in `other`. -/
def ws_set_is_subset {α : Type} (cmp : α → α → Int) (self other : ws_set α) : Bool :=
  self.elems.all (fun e => (ws_set_get cmp other e).isSome)

/-- Modelled from the spec: `ws_set_equal` of `objects/set.c` (not among the sources)
returns 1 when each set is a subset of the other and the cardinalities agree, and 0
otherwise. -/
def ws_set_equal {α : Type} (cmp : α → α → Int) (a b : ws_set α) : Int :=
  if ws_set_is_subset cmp a b && ws_set_is_subset cmp b a
      && decide (ws_set_cardinality a = ws_set_cardinality b) then 1 else 0

/-! ### The fixtures of `tests/check/objects/ws_set/test.c`

An object reference is embedded as the address of the object, an `Int` counted in
units of the object size, so that two live objects have different addresses. -/

/-- Modelled from the spec: `signum` of `util/arithmetical.h` (not among the sources),
the sign of an integer. -/
def signum (x : Int) : Int := Int.sign x

/-- The compare callback of the test type: `signum(o2 - o1)`. -/
def compare_set_test_objs (o1 o2 : Int) : Int := signum (o2 - o1)

/-- The constant `N_TEST_OBJS` of the test. -/
def N_TEST_OBJS : Nat := 15

/-- The selector `predicate` of the test: `return 1`. -/
def predicate (_obj : Int) : Int := 1

/-- The selector `processor` of the test: insert the object into the set behind
`etc`, ignore the outcome and return 0. -/
def processor (etc : ws_set Int) (obj : Int) : Int × ws_set Int :=
  (0, (ws_set_insert compare_set_test_objs etc obj).2)

/-- The loop `for (i = N_TEST_OBJS - 1; i; --i)` of `test_set_setup_sets`: the objects
of odd index go to `set_a`, those of even index to `set_b`; a failing `ck_assert`
gives no result. -/
def test_set_setup_sets_loop (TEST_OBJS : Nat → Int) :
    Nat → ws_set Int × ws_set Int → Option (ws_set Int × ws_set Int)
  | 0, sets => some sets
  | i + 1, (set_a, set_b) =>
    if (i + 1) % 2 ≠ 0 then
      match ws_set_insert compare_set_test_objs set_a (TEST_OBJS (i + 1)) with
      | (ws_set_status.success, set_a1) =>
        test_set_setup_sets_loop TEST_OBJS i (set_a1, set_b)
      | _ => none
    else
      match ws_set_insert compare_set_test_objs set_b (TEST_OBJS (i + 1)) with
      | (ws_set_status.success, set_b1) =>
        test_set_setup_sets_loop TEST_OBJS i (set_a, set_b1)
      | _ => none

/-- The fixture `test_set_setup_sets`: `set_a` and `set_b` start empty and are
filled by the loop. -/
def test_set_setup_sets (TEST_OBJS : Nat → Int) : Option (ws_set Int × ws_set Int) :=
  test_set_setup_sets_loop TEST_OBJS (N_TEST_OBJS - 1) (ws_set_new, ws_set_new)

/-! ## Type descriptors (`objects/object.h`, `objects/named.c`) -/

/-- The type descriptor `struct ws_object_type` of `objects/object.h`, reduced to its
place in the hierarchy and its type string.  The supertype chain is acyclic but for
the root, whose supertype refers to itself; a descriptor is identified by its type
string and its chain. -/
inductive ws_object_type
  | root (typestr : String)
  | derived (supertype : ws_object_type) (typestr : String)
  deriving DecidableEq, Repr

/-- The field `supertype` of a descriptor: a reference to itself for the root. -/
def ws_object_type.supertype : ws_object_type → ws_object_type
  | ws_object_type.root typestr => ws_object_type.root typestr
  | ws_object_type.derived sup _ => sup

/-- The object record `struct ws_object` of `objects/object.h`; the locks are not
represented. -/
structure ws_object where
  id : ws_object_type
  refcnt : Nat
  settings : Nat
  uuid : Nat
  deriving DecidableEq, Repr

/-- The descriptor `WS_OBJECT_TYPE_ID_NAMED` of `objects/named.c`: its supertype is
`WS_OBJECT_TYPE_ID_STRING` (defined in `objects/string.c`, not among the sources, and
taken as a parameter), its type string is "ws_named". -/
def WS_OBJECT_TYPE_ID_NAMED (WS_OBJECT_TYPE_ID_STRING : ws_object_type) :
    ws_object_type :=
  ws_object_type.derived WS_OBJECT_TYPE_ID_STRING "ws_named"

/-- Modelled from the spec: the walk of `ws_object_is_instance_of` (`objects/object.c`,
not among the sources) from a descriptor along its supertype chain to the root. -/
def ws_object_type.is_or_extends : ws_object_type → ws_object_type → Bool
  | ws_object_type.root typestr, type => decide (ws_object_type.root typestr = type)
  | ws_object_type.derived sup typestr, type =>
    decide (ws_object_type.derived sup typestr = type) || sup.is_or_extends type

/-- Modelled from the spec: `ws_object_is_instance_of` of `objects/object.c` (not among
the sources; declared in `objects/object.h`) is true if the type appears anywhere on
the supertype chain of the object, its own type included. -/
def ws_object_is_instance_of (self : ws_object) (type : ws_object_type) : Bool :=
  self.id.is_or_extends type

/-- The descriptor `TEST_ID` of `tests/check/objects/ws_set/test.c`: its supertype is
`WS_OBJECT_TYPE_ID_OBJECT` (defined in `objects/object.c`, not among the sources, and
taken as a parameter), its type string is "ws_set_test_obj". -/
def TEST_ID (WS_OBJECT_TYPE_ID_OBJECT : ws_object_type) : ws_object_type :=
  ws_object_type.derived WS_OBJECT_TYPE_ID_OBJECT "ws_set_test_obj"

/-! ## Error replies (`objects/message/error_reply.h`) -/

/-- The record `struct ws_error_reply` of `objects/message/error_reply.h`, without its
base class: an `unsigned int` code and two strings that may be absent. -/
structure ws_error_reply where
  code : Nat
  description : Option String
  cause : Option String
  deriving DecidableEq, Repr

/-- Modelled from the spec: `ws_error_reply_new` of `objects/message/error_reply.c`
(not among the sources; declared in `error_reply.h`) stores the code and copies the
description and the cause, an absent one being stored as the empty string; it fails,
returning no reply, only when the allocation does. -/
def ws_error_reply_new (allocated : Bool) (code : Nat) (description : Option String)
    (cause : Option String) : Option ws_error_reply :=
  if allocated then
    some ⟨code, some (description.getD ""), some (cause.getD "")⟩
  else none

/-- Modelled from the spec: `ws_error_reply_get_code` of
`objects/message/error_reply.c` (not among the sources) returns the stored code. -/
def ws_error_reply_get_code (self : ws_error_reply) : Nat := self.code

/-- Modelled from the spec: `ws_error_reply_get_description` of
`objects/message/error_reply.c` (not among the sources) always returns a valid string,
"" if the reply does not contain one. -/
def ws_error_reply_get_description (self : ws_error_reply) : Option String :=
  match self.description with
  | some s => some s
  | none => some ""

/-- Modelled from the spec: `ws_error_reply_get_cause` of
`objects/message/error_reply.c` (not among the sources) always returns a valid string,
"" if the reply does not contain one. -/
def ws_error_reply_get_cause (self : ws_error_reply) : Option String :=
  match self.cause with
  | some s => some s
  | none => some ""

/-! ## Arithmetic of `wrap_intmax` -/

theorem wrap_intmax_of_is_intmax {x : Int} (h : is_intmax x) : wrap_intmax x = x := by
  unfold is_intmax INTMAX_MIN INTMAX_MAX at h
  unfold wrap_intmax
  omega

theorem is_intmax_wrap_intmax (x : Int) : is_intmax (wrap_intmax x) := by
  unfold is_intmax INTMAX_MIN INTMAX_MAX wrap_intmax
  omega

theorem wrap_intmax_add_left (a b : Int) :
    wrap_intmax (wrap_intmax a + b) = wrap_intmax (a + b) := by
  unfold wrap_intmax
  omega

theorem wrap_intmax_sub_left (a b : Int) :
    wrap_intmax (wrap_intmax a - b) = wrap_intmax (a - b) := by
  unfold wrap_intmax
  omega

theorem wrap_intmax_modEq (a : Int) :
    wrap_intmax a ≡ a [ZMOD 18446744073709551616] := by
  unfold wrap_intmax Int.ModEq
  omega

theorem wrap_intmax_congr {a b : Int} (h : a ≡ b [ZMOD 18446744073709551616]) :
    wrap_intmax a = wrap_intmax b := by
  unfold Int.ModEq at h
  unfold wrap_intmax
  omega

theorem wrap_intmax_mul_left (a b : Int) :
    wrap_intmax (wrap_intmax a * b) = wrap_intmax (a * b) :=
  wrap_intmax_congr ((wrap_intmax_modEq a).mul_right b)

/-! ## The scan over a prefix of integers -/

theorem ITERATE_ARGS_TYPE_ints (body : Int → Int → Int) (ops : List Int)
    (x : ws_value_union) (rest : List ws_value_union) (it : Nat) (acc : Int)
    (hx : ws_value_get_type x ≠ WS_VALUE_TYPE_INT) :
    ITERATE_ARGS_TYPE body (ops.map int_ ++ x :: rest) it acc
      = some (it + ops.length, ops.foldl body acc) := by
  induction ops generalizing it acc with
  | nil => simp [ITERATE_ARGS_TYPE, hx]
  | cons o os ih =>
    have step : ITERATE_ARGS_TYPE body (int_ o :: (os.map int_ ++ x :: rest)) it acc
        = ITERATE_ARGS_TYPE body (os.map int_ ++ x :: rest) (it + 1) (body acc o) := by
      rw [ITERATE_ARGS_TYPE]
      simp [ws_value_get_type, ws_value_int_get]
    rw [List.map_cons, List.cons_append, step, ih, List.foldl_cons, List.length_cons]
    congr 2
    omega

theorem foldl_wrap_add (ops : List Int) (a : Int) :
    ops.foldl (fun sum val => wrap_intmax (sum + val)) (wrap_intmax a)
      = wrap_intmax (a + ops.sum) := by
  induction ops generalizing a with
  | nil => simp
  | cons o os ih =>
    simp only [List.foldl_cons, List.sum_cons]
    rw [wrap_intmax_add_left, ih, add_assoc]

theorem foldl_wrap_sub (ops : List Int) (a : Int) :
    ops.foldl (fun sum val => wrap_intmax (sum - val)) (wrap_intmax a)
      = wrap_intmax (ops.foldl (fun sum val => sum - val) a) := by
  induction ops generalizing a with
  | nil => simp
  | cons o os ih =>
    simp only [List.foldl_cons]
    rw [wrap_intmax_sub_left, ih]

theorem foldl_wrap_mul (ops : List Int) (a : Int) :
    ops.foldl (fun prod val => wrap_intmax (prod * val)) (wrap_intmax a)
      = wrap_intmax (a * ops.prod) := by
  induction ops generalizing a with
  | nil => simp
  | cons o os ih =>
    simp only [List.foldl_cons, List.prod_cons]
    rw [wrap_intmax_mul_left, ih, mul_assoc]

theorem AT_END_ints (ops : List Int) (x : ws_value_union) (rest : List ws_value_union) :
    AT_END (ops.map int_ ++ x :: rest) ops.length
      = some (decide (ws_value_get_type x = WS_VALUE_TYPE_NONE)) := by
  have h : (ops.map int_ ++ x :: rest)[ops.length]? = some x := by
    rw [List.getElem?_append_right (by simp)]
    simp
  simp [AT_END, h]

/-- Re-tagging slot 0 as an integer and storing the result there replaces slot 0 by
the integer result and touches no other slot. -/
theorem store_result (args : List ws_value_union) (r : Int) :
    slot_update (slot_update args 0 (fun v => ws_value_union_reinit v WS_VALUE_TYPE_INT))
      0 (fun v => ws_value_int_set v r) = args.set 0 (int_ r) := by
  cases args with
  | nil => simp [slot_update]
  | cons a t => simp [slot_update, ws_value_union_reinit, ws_value_int_set]

/-- C1 (`ws_builtin_cmd_add`): on a stack whose slots before the first none slot are
the integers `ops` (possibly none at all), `add` returns 0 and leaves in slot 0 the
integer sum of `ops`, reduced to `intmax_t`; every other slot is as before.  On
`[3, 4, 5, none]` slot 0 becomes 12, on the empty list it becomes 0. -/
theorem ws_builtin_cmd_add_sum (ops : List Int) (rest : List ws_value_union) :
    ws_builtin_cmd_add (ops.map int_ ++ none_ :: rest)
        = some (0, (ops.map int_ ++ none_ :: rest).set 0 (int_ (wrap_intmax ops.sum)))
      ∧ ws_builtin_cmd_add [int_ 3, int_ 4, int_ 5, none_]
        = some (0, [int_ 12, int_ 4, int_ 5, none_])
      ∧ ws_builtin_cmd_add [none_] = some (0, [int_ 0]) := by
  refine ⟨?_, by decide, by decide⟩
  unfold ws_builtin_cmd_add
  rw [ITERATE_ARGS_TYPE_ints _ _ _ _ _ _ (by simp [ws_value_get_type])]
  simp only [Nat.zero_add, AT_END_ints, ws_value_get_type, decide_True]
  rw [store_result]
  have h := foldl_wrap_add ops 0
  rw [wrap_intmax_of_is_intmax (by decide)] at h
  simp [h]

theorem AT_END_cons_ints (a : ws_value_union) (ops : List Int) (x : ws_value_union)
    (rest : List ws_value_union) :
    AT_END (a :: (ops.map int_ ++ x :: rest)) (1 + ops.length)
      = some (decide (ws_value_get_type x = WS_VALUE_TYPE_NONE)) := by
  have h := AT_END_ints ops x rest
  unfold AT_END at h ⊢
  rw [Nat.add_comm, List.getElem?_cons_succ]
  exact h

/-- C2 (`ws_builtin_cmd_sub`): on a stack whose slot 0 is the integer `a` and whose
remaining slots before the terminator are the integers `bs` (possibly none at all),
`sub` returns 0 and leaves in slot 0 the integer `a - b1 - ... - bn`, the operands
subtracted in order, in `intmax_t` arithmetic; every other slot is as before.  With
no further operand slot 0 keeps `a`, and on `[10, 3, 2, none]` slot 0 becomes 5. -/
theorem ws_builtin_cmd_sub_difference (a : Int) (bs : List Int)
    (rest : List ws_value_union) (ha : is_intmax a) :
    ws_builtin_cmd_sub (int_ a :: (bs.map int_ ++ none_ :: rest))
        = some (0, int_ (wrap_intmax (bs.foldl (fun acc b => acc - b) a))
            :: (bs.map int_ ++ none_ :: rest))
      ∧ ws_builtin_cmd_sub (int_ a :: none_ :: rest) = some (0, int_ a :: none_ :: rest)
      ∧ ws_builtin_cmd_sub [int_ 10, int_ 3, int_ 2, none_]
        = some (0, [int_ 5, int_ 3, int_ 2, none_]) := by
  have main : ∀ cs : List Int,
      ws_builtin_cmd_sub (int_ a :: (cs.map int_ ++ none_ :: rest))
        = some (0, int_ (wrap_intmax (cs.foldl (fun acc b => acc - b) a))
            :: (cs.map int_ ++ none_ :: rest)) := by
    intro cs
    unfold ws_builtin_cmd_sub
    simp only [List.getElem?_cons_zero, ws_value_get_type, ne_eq, not_true_eq_false,
      if_false, List.drop_succ_cons, List.drop_zero, ws_value_int_get]
    rw [ITERATE_ARGS_TYPE_ints _ _ _ _ _ _ (by simp [ws_value_get_type])]
    simp only [AT_END_cons_ints, ws_value_get_type, decide_True]
    rw [store_result]
    have h := foldl_wrap_sub cs a
    rw [wrap_intmax_of_is_intmax ha] at h
    simp [h]
  refine ⟨main bs, ?_, by decide⟩
  have h := main []
  simpa [wrap_intmax_of_is_intmax ha] using h

/-- Witness of C2 at `sub([10, 3, 2, none])`. -/
theorem ws_builtin_cmd_sub_difference_witness :
    is_intmax 10 ∧
    ws_builtin_cmd_sub (int_ 10 :: ([3, 2].map int_ ++ none_ :: []))
      = some (0, int_ (wrap_intmax ([3, 2].foldl (fun acc b => acc - b) 10))
          :: ([3, 2].map int_ ++ none_ :: [])) :=
  ⟨by decide, (ws_builtin_cmd_sub_difference 10 [3, 2] [] (by decide)).1⟩

/-- C3 (`ws_builtin_cmd_mul`): on a stack whose slots before the first none slot are
the integers `ops` (possibly none at all), `mul` returns 0 and leaves in slot 0 the
integer product of `ops`, reduced to `intmax_t`; every other slot is as before.  On
`[2, 3, 4, none]` slot 0 becomes 24, on the empty list it becomes 1. -/
theorem ws_builtin_cmd_mul_product (ops : List Int) (rest : List ws_value_union) :
    ws_builtin_cmd_mul (ops.map int_ ++ none_ :: rest)
        = some (0, (ops.map int_ ++ none_ :: rest).set 0 (int_ (wrap_intmax ops.prod)))
      ∧ ws_builtin_cmd_mul [int_ 2, int_ 3, int_ 4, none_]
        = some (0, [int_ 24, int_ 3, int_ 4, none_])
      ∧ ws_builtin_cmd_mul [none_] = some (0, [int_ 1]) := by
  refine ⟨?_, by decide, by decide⟩
  unfold ws_builtin_cmd_mul
  rw [ITERATE_ARGS_TYPE_ints _ _ _ _ _ _ (by simp [ws_value_get_type])]
  simp only [Nat.zero_add, AT_END_ints, ws_value_get_type, decide_True]
  rw [store_result]
  have h := foldl_wrap_mul ops 1
  rw [wrap_intmax_of_is_intmax (by decide)] at h
  simp [h]

/-- The truncating quotient of two `intmax_t` is an `intmax_t`, except for
`INTMAX_MIN / -1`. -/
theorem is_intmax_tdiv {a b : Int} (ha : is_intmax a) (hb0 : b ≠ 0)
    (hov : ¬ (a = INTMAX_MIN ∧ b = -1)) : is_intmax (Int.tdiv a b) := by
  have habs : (Int.tdiv a b).natAbs * b.natAbs ≤ a.natAbs := by
    rw [Int.natAbs_tdiv]
    exact Nat.div_mul_le_self _ _
  have hbpos : 1 ≤ b.natAbs := Nat.one_le_iff_ne_zero.mpr (Int.natAbs_ne_zero.mpr hb0)
  have hq : (Int.tdiv a b).natAbs ≤ a.natAbs :=
    le_trans (Nat.le_mul_of_pos_right _ hbpos) habs
  unfold is_intmax INTMAX_MIN INTMAX_MAX at ha ⊢
  unfold INTMAX_MIN at hov
  by_cases hb1 : b = -1
  · subst hb1
    have : Int.tdiv a (-1) = -a := by
      rw [Int.tdiv_neg, Int.tdiv_one]
    rw [this]
    have hne : a ≠ -9223372036854775808 := fun h => hov ⟨h, rfl⟩
    omega
  · by_cases hb2 : b = 1
    · subst hb2
      rw [Int.tdiv_one]
      exact ha
    · have hb2 : 2 ≤ b.natAbs := by omega
      have : (Int.tdiv a b).natAbs * 2 ≤ a.natAbs :=
        le_trans (Nat.mul_le_mul_left _ hb2) habs
      omega

/-- C4, the claim as stated fails: `INTMAX_MIN` and `-1` are `intmax_t` values with a
non-zero divisor, but their truncating quotient `2^63` is no `intmax_t`, and
`div([INTMAX_MIN, -1, none])` does not return 0 with that quotient in slot 0. -/
theorem ws_builtin_cmd_div_overflow :
    is_intmax INTMAX_MIN ∧ is_intmax (-1) ∧ (-1 : Int) ≠ 0
      ∧ ¬ is_intmax (Int.tdiv INTMAX_MIN (-1))
      ∧ ws_builtin_cmd_div [int_ INTMAX_MIN, int_ (-1), none_]
        ≠ some (0, [int_ (Int.tdiv INTMAX_MIN (-1)), int_ (-1), none_]) := by
  decide

/-- C4 as amended (`ws_builtin_cmd_div`): for `intmax_t` values `a` and `b` with
`b ≠ 0`, other than the pair `a = INTMAX_MIN`, `b = -1`, `div([a, b, none])` returns
0 and slot 0 becomes the quotient of `a` by `b` truncated toward zero, which is an
`intmax_t`; `div([7, 2, none])` gives 3 and `div([-7, 2, none])` gives -3. -/
theorem ws_builtin_cmd_div_quotient (a b : Int) (rest : List ws_value_union)
    (ha : is_intmax a) (hb0 : b ≠ 0) (hov : ¬ (a = INTMAX_MIN ∧ b = -1)) :
    ws_builtin_cmd_div (int_ a :: int_ b :: none_ :: rest)
        = some (0, int_ (Int.tdiv a b) :: int_ b :: none_ :: rest)
      ∧ is_intmax (Int.tdiv a b)
      ∧ ws_builtin_cmd_div [int_ 7, int_ 2, none_] = some (0, [int_ 3, int_ 2, none_])
      ∧ ws_builtin_cmd_div [int_ (-7), int_ 2, none_]
        = some (0, [int_ (-3), int_ 2, none_]) := by
  have hq := is_intmax_tdiv ha hb0 hov
  refine ⟨?_, hq, by decide, by decide⟩
  simp [ws_builtin_cmd_div, ws_value_get_type, ws_value_int_get, hb0, intmax_div, hq,
    slot_update, ws_value_int_set]

/-- Witness of amended C4 at `div([-7, 2, none])`. -/
theorem ws_builtin_cmd_div_quotient_witness :
    is_intmax (-7) ∧ (2 : Int) ≠ 0 ∧ ¬ ((-7 : Int) = INTMAX_MIN ∧ (2 : Int) = -1)
      ∧ ws_builtin_cmd_div (int_ (-7) :: int_ 2 :: none_ :: [])
        = some (0, int_ (Int.tdiv (-7) 2) :: int_ 2 :: none_ :: []) :=
  ⟨by decide, by decide, by decide,
    (ws_builtin_cmd_div_quotient (-7) 2 [] (by decide) (by decide) (by decide)).1⟩

/-! ## Stacks seen as a prefix of integers and the slot that stops the scan -/

theorem ws_value_get_type_eq_none_iff (y : ws_value_union) :
    ws_value_get_type y = WS_VALUE_TYPE_NONE ↔ y = none_ := by
  cases y <;> simp [ws_value_get_type]

theorem ws_value_get_type_eq_int_iff (y : ws_value_union) :
    ws_value_get_type y = WS_VALUE_TYPE_INT ↔ ∃ v, y = int_ v := by
  cases y <;> simp [ws_value_get_type]

/-- Every stack is either made of integers only, or a prefix of integers followed by a
first slot that is not an integer. -/
theorem ints_prefix_split (l : List ws_value_union) :
    (∃ ops : List Int, l = ops.map int_) ∨
    (∃ (ops : List Int) (y : ws_value_union) (rest : List ws_value_union),
      l = ops.map int_ ++ y :: rest ∧ ws_value_get_type y ≠ WS_VALUE_TYPE_INT) := by
  induction l with
  | nil => exact Or.inl ⟨[], rfl⟩
  | cons a t ih =>
    by_cases ha : ws_value_get_type a = WS_VALUE_TYPE_INT
    · obtain ⟨v, rfl⟩ := (ws_value_get_type_eq_int_iff a).mp ha
      rcases ih with ⟨ops, rfl⟩ | ⟨ops, y, rest, rfl, hy⟩
      · exact Or.inl ⟨v :: ops, rfl⟩
      · exact Or.inr ⟨v :: ops, y, rest, rfl, hy⟩
    · exact Or.inr ⟨[], a, t, rfl, ha⟩

theorem ints_prefix_slot (ops : List Int) (tail : List ws_value_union) (j : Nat)
    (x : ws_value_union) (hj : j < ops.length)
    (hx : (ops.map int_ ++ tail)[j]? = some x) :
    ws_value_get_type x = WS_VALUE_TYPE_INT := by
  rw [List.getElem?_append_left (by simpa using hj)] at hx
  rw [List.getElem?_map] at hx
  cases h : ops[j]? with
  | none => simp [h] at hx
  | some v =>
    simp [h] at hx
    subst hx
    rfl

theorem ints_prefix_stop (ops : List Int) (y : ws_value_union)
    (rest : List ws_value_union) :
    (ops.map int_ ++ y :: rest)[ops.length]? = some y := by
  rw [List.getElem?_append_right (by simp)]
  simp

theorem ITERATE_ARGS_TYPE_all_ints (body : Int → Int → Int) (ops : List Int)
    (it : Nat) (acc : Int) :
    ITERATE_ARGS_TYPE body (ops.map int_) it acc = none := by
  induction ops generalizing it acc with
  | nil => rfl
  | cons o os ih =>
    rw [List.map_cons, ITERATE_ARGS_TYPE]
    simp [ws_value_get_type, ih]

/-! ## What each command returns on a prefix of integers and a stopping slot -/

theorem ws_builtin_cmd_add_stop (ops : List Int) (y : ws_value_union)
    (rest : List ws_value_union) (hy : ws_value_get_type y ≠ WS_VALUE_TYPE_INT) :
    ws_builtin_cmd_add (ops.map int_ ++ y :: rest)
      = if ws_value_get_type y = WS_VALUE_TYPE_NONE then
          some (0, (ops.map int_ ++ y :: rest).set 0
            (int_ (ops.foldl (fun sum val => wrap_intmax (sum + val)) 0)))
        else some (-EINVAL, ops.map int_ ++ y :: rest) := by
  unfold ws_builtin_cmd_add
  rw [ITERATE_ARGS_TYPE_ints _ _ _ _ _ _ hy]
  simp only [Nat.zero_add, AT_END_ints]
  by_cases h : ws_value_get_type y = WS_VALUE_TYPE_NONE
  · simp only [h, decide_True, if_true]
    rw [store_result]
  · simp [h]

theorem ws_builtin_cmd_mul_stop (ops : List Int) (y : ws_value_union)
    (rest : List ws_value_union) (hy : ws_value_get_type y ≠ WS_VALUE_TYPE_INT) :
    ws_builtin_cmd_mul (ops.map int_ ++ y :: rest)
      = if ws_value_get_type y = WS_VALUE_TYPE_NONE then
          some (0, (ops.map int_ ++ y :: rest).set 0
            (int_ (ops.foldl (fun prod val => wrap_intmax (prod * val)) 1)))
        else some (-EINVAL, ops.map int_ ++ y :: rest) := by
  unfold ws_builtin_cmd_mul
  rw [ITERATE_ARGS_TYPE_ints _ _ _ _ _ _ hy]
  simp only [Nat.zero_add, AT_END_ints]
  by_cases h : ws_value_get_type y = WS_VALUE_TYPE_NONE
  · simp only [h, decide_True, if_true]
    rw [store_result]
  · simp [h]

theorem ws_builtin_cmd_sub_stop (a : Int) (bs : List Int) (y : ws_value_union)
    (rest : List ws_value_union) (hy : ws_value_get_type y ≠ WS_VALUE_TYPE_INT) :
    ws_builtin_cmd_sub (int_ a :: (bs.map int_ ++ y :: rest))
      = if ws_value_get_type y = WS_VALUE_TYPE_NONE then
          some (0, int_ (bs.foldl (fun sum val => wrap_intmax (sum - val)) a)
            :: (bs.map int_ ++ y :: rest))
        else some (-EINVAL, int_ a :: (bs.map int_ ++ y :: rest)) := by
  have h0 : ws_value_get_type (int_ a) = WS_VALUE_TYPE_INT := rfl
  have h1 : ws_value_int_get (int_ a) = a := rfl
  unfold ws_builtin_cmd_sub
  simp only [List.getElem?_cons_zero, h0, h1, ne_eq, not_true_eq_false,
    if_false, List.drop_succ_cons, List.drop_zero]
  rw [ITERATE_ARGS_TYPE_ints _ _ _ _ _ _ hy]
  simp only [AT_END_cons_ints]
  by_cases h : ws_value_get_type y = WS_VALUE_TYPE_NONE
  · simp only [h, decide_True, if_true]
    rw [store_result]
    simp
  · simp [h]

/-- A slot that is neither an integer nor none and lies before the first none slot
forces the scan from slot 0 to stop on a slot that is not none. -/
theorem stop_before_first_none (args : List ws_value_union) (i : Nat)
    (x : ws_value_union) (hx : args[i]? = some x)
    (hint : ws_value_get_type x ≠ WS_VALUE_TYPE_INT)
    (hnone : ws_value_get_type x ≠ WS_VALUE_TYPE_NONE)
    (hfirst : ∀ j, j < i → args[j]? ≠ some none_) :
    ∃ (ops : List Int) (y : ws_value_union) (rest : List ws_value_union),
      args = ops.map int_ ++ y :: rest ∧ ws_value_get_type y ≠ WS_VALUE_TYPE_INT
        ∧ ws_value_get_type y ≠ WS_VALUE_TYPE_NONE ∧ ops.length ≤ i := by
  rcases ints_prefix_split args with ⟨ops, rfl⟩ | ⟨ops, y, rest, rfl, hy⟩
  · exfalso
    by_cases hi : i < ops.length
    · have := ints_prefix_slot ops [] i x hi (by simpa using hx)
      exact hint this
    · rw [List.getElem?_eq_none (by simpa using hi)] at hx
      exact Option.noConfusion hx
  · have hk : ops.length ≤ i := by
      by_contra hlt
      exact hint (ints_prefix_slot ops (y :: rest) i x (by omega) hx)
    refine ⟨ops, y, rest, rfl, hy, ?_, hk⟩
    rcases Nat.lt_or_eq_of_le hk with hlt | heq
    · intro hyn
      rw [ws_value_get_type_eq_none_iff] at hyn
      apply hfirst ops.length hlt
      rw [ints_prefix_stop, hyn]
    · rw [← heq, ints_prefix_stop] at hx
      cases hx
      exact hnone

/-- C5 (`ws_builtin_cmd_add`, `ws_builtin_cmd_mul`): when some slot `i` that is
neither an integer nor none occurs before the first none slot, wherever it is, both
commands return `-EINVAL` (and leave the stack as it was); `add([3, "x", none])`
returns `-EINVAL`, which is -22. -/
theorem ws_builtin_cmd_add_mul_invalid_argument (args : List ws_value_union) (i : Nat)
    (x : ws_value_union) (hx : args[i]? = some x)
    (hint : ws_value_get_type x ≠ WS_VALUE_TYPE_INT)
    (hnone : ws_value_get_type x ≠ WS_VALUE_TYPE_NONE)
    (hfirst : ∀ j, j < i → args[j]? ≠ some none_) :
    ws_builtin_cmd_add args = some (-EINVAL, args)
      ∧ ws_builtin_cmd_mul args = some (-EINVAL, args)
      ∧ ws_builtin_cmd_add [int_ 3, string_ "x", none_]
        = some (-22, [int_ 3, string_ "x", none_]) := by
  obtain ⟨ops, y, rest, rfl, hy, hyn, _⟩ :=
    stop_before_first_none args i x hx hint hnone hfirst
  refine ⟨?_, ?_, by decide⟩
  · rw [ws_builtin_cmd_add_stop ops y rest hy, if_neg hyn]
  · rw [ws_builtin_cmd_mul_stop ops y rest hy, if_neg hyn]

/-- Witness of C5 at `add([3, "x", none])` and `mul([3, "x", none])`, slot 1. -/
theorem ws_builtin_cmd_add_mul_invalid_argument_witness :
    ws_builtin_cmd_add [int_ 3, string_ "x", none_]
        = some (-EINVAL, [int_ 3, string_ "x", none_])
      ∧ ws_builtin_cmd_mul [int_ 3, string_ "x", none_]
        = some (-EINVAL, [int_ 3, string_ "x", none_]) :=
  have h := ws_builtin_cmd_add_mul_invalid_argument [int_ 3, string_ "x", none_] 1
    (string_ "x") rfl (by decide) (by decide)
    (by
      intro j hj
      have hj0 : j = 0 := by omega
      subst hj0
      decide)
  ⟨h.1, h.2.1⟩

/-- C6 (`ws_builtin_cmd_sub`): `sub` returns `-EINVAL` exactly when slot 0 is not an
integer (the empty argument list, whose slot 0 is the terminator, included) or some
slot after slot 0 and before the first none slot is not an integer; on every other
none-terminated stack it returns 0. -/
theorem ws_builtin_cmd_sub_invalid_iff (args : List ws_value_union) :
    ((∃ out, ws_builtin_cmd_sub args = some (-EINVAL, out)) ↔
      ((∃ x, args[0]? = some x ∧ ws_value_get_type x ≠ WS_VALUE_TYPE_INT) ∨
       (∃ i x, 1 ≤ i ∧ args[i]? = some x ∧ ws_value_get_type x ≠ WS_VALUE_TYPE_INT
          ∧ ∀ j, j ≤ i → args[j]? ≠ some none_)))
    ∧ (none_ ∈ args →
        ¬ ((∃ x, args[0]? = some x ∧ ws_value_get_type x ≠ WS_VALUE_TYPE_INT) ∨
           (∃ i x, 1 ≤ i ∧ args[i]? = some x ∧ ws_value_get_type x ≠ WS_VALUE_TYPE_INT
              ∧ ∀ j, j ≤ i → args[j]? ≠ some none_)) →
        ∃ out, ws_builtin_cmd_sub args = some (0, out)) := by
  cases args with
  | nil =>
    refine ⟨?_, fun h => absurd h (List.not_mem_nil _)⟩
    simp [ws_builtin_cmd_sub]
  | cons a0 t =>
    by_cases h0 : ws_value_get_type a0 = WS_VALUE_TYPE_INT
    · obtain ⟨a, rfl⟩ := (ws_value_get_type_eq_int_iff a0).mp h0
      rcases ints_prefix_split t with ⟨ops, rfl⟩ | ⟨ops, y, rest, rfl, hy⟩
      · -- the scan runs off a stack of integers
        have hsub : ws_builtin_cmd_sub (int_ a :: ops.map int_) = none := by
          unfold ws_builtin_cmd_sub
          simp only [List.getElem?_cons_zero, h0, ne_eq, not_true_eq_false, if_false,
            List.drop_succ_cons, List.drop_zero, ITERATE_ARGS_TYPE_all_ints]
        have hall : ∀ (i : Nat) (x : ws_value_union), (int_ a :: ops.map int_)[i]? = some x →
            ws_value_get_type x = WS_VALUE_TYPE_INT := by
          intro i x hx
          have hx2 : ((a :: ops).map int_ ++ [])[i]? = some x := by simpa using hx
          by_cases hi : i < (a :: ops).length
          · exact ints_prefix_slot (a :: ops) [] i x hi hx2
          · rw [List.getElem?_eq_none (by simpa using hi)] at hx2
            exact Option.noConfusion hx2
        refine ⟨?_, ?_⟩
        · rw [hsub]
          constructor
          · rintro ⟨out, h⟩
            exact Option.noConfusion h
          · rintro (⟨x, hx, hxt⟩ | ⟨i, x, _, hx, hxt, _⟩)
            · exact absurd (hall 0 x hx) hxt
            · exact absurd (hall i x hx) hxt
        · intro hmem
          exfalso
          obtain ⟨i, hi⟩ := List.getElem?_of_mem hmem
          have := hall i none_ hi
          simp [ws_value_get_type] at this
      · -- the scan stops on the slot `y` at index `1 + ops.length`
        have hshape : int_ a :: (ops.map int_ ++ y :: rest)
            = (a :: ops).map int_ ++ y :: rest := rfl
        have hstop : (int_ a :: (ops.map int_ ++ y :: rest))[(a :: ops).length]?
            = some y := by
          rw [hshape]
          exact ints_prefix_stop (a :: ops) y rest
        have hpre : ∀ (j : Nat) (x : ws_value_union), j < (a :: ops).length →
            (int_ a :: (ops.map int_ ++ y :: rest))[j]? = some x →
            ws_value_get_type x = WS_VALUE_TYPE_INT := by
          intro j x hj hx
          rw [hshape] at hx
          exact ints_prefix_slot (a :: ops) (y :: rest) j x hj hx
        rw [ws_builtin_cmd_sub_stop a ops y rest hy]
        by_cases hyn : ws_value_get_type y = WS_VALUE_TYPE_NONE
        · rw [if_pos hyn]
          have hbad : ¬ ((∃ x, (int_ a :: (ops.map int_ ++ y :: rest))[0]? = some x
                ∧ ws_value_get_type x ≠ WS_VALUE_TYPE_INT) ∨
              (∃ i x, 1 ≤ i ∧ (int_ a :: (ops.map int_ ++ y :: rest))[i]? = some x
                ∧ ws_value_get_type x ≠ WS_VALUE_TYPE_INT
                ∧ ∀ j, j ≤ i → (int_ a :: (ops.map int_ ++ y :: rest))[j]?
                    ≠ some none_)) := by
            rintro (⟨x, hx, hxt⟩ | ⟨i, x, _, hx, hxt, hfirst⟩)
            · exact hxt (hpre 0 x (by simp) hx)
            · by_cases hi : i < (a :: ops).length
              · exact hxt (hpre i x hi hx)
              · apply hfirst (a :: ops).length (by omega)
                rw [hstop, (ws_value_get_type_eq_none_iff y).mp hyn]
          refine ⟨?_, fun _ _ => ⟨_, rfl⟩⟩
          constructor
          · rintro ⟨out, h⟩
            simp [EINVAL] at h
          · intro h
            exact absurd h hbad
        · rw [if_neg hyn]
          have hbad : (∃ x, (int_ a :: (ops.map int_ ++ y :: rest))[0]? = some x
                ∧ ws_value_get_type x ≠ WS_VALUE_TYPE_INT) ∨
              (∃ i x, 1 ≤ i ∧ (int_ a :: (ops.map int_ ++ y :: rest))[i]? = some x
                ∧ ws_value_get_type x ≠ WS_VALUE_TYPE_INT
                ∧ ∀ j, j ≤ i → (int_ a :: (ops.map int_ ++ y :: rest))[j]?
                    ≠ some none_) := by
            refine Or.inr ⟨(a :: ops).length, y, by simp, hstop, hy, ?_⟩
            intro j hj hjn
            rcases Nat.lt_or_eq_of_le hj with hlt | heq
            · have := hpre j none_ hlt hjn
              simp [ws_value_get_type] at this
            · rw [heq, hstop] at hjn
              cases hjn
              exact hyn rfl
          exact ⟨⟨fun _ => hbad, fun _ => ⟨_, rfl⟩⟩, fun _ h => absurd hbad h⟩
    · -- slot 0 is not an integer
      have hsub : ws_builtin_cmd_sub (a0 :: t) = some (-EINVAL, a0 :: t) := by
        simp [ws_builtin_cmd_sub, h0]
      have hbad : (∃ x, (a0 :: t)[0]? = some x
            ∧ ws_value_get_type x ≠ WS_VALUE_TYPE_INT) ∨
          (∃ i x, 1 ≤ i ∧ (a0 :: t)[i]? = some x
            ∧ ws_value_get_type x ≠ WS_VALUE_TYPE_INT
            ∧ ∀ j, j ≤ i → (a0 :: t)[j]? ≠ some none_) :=
        Or.inl ⟨a0, List.getElem?_cons_zero, h0⟩
      exact ⟨⟨fun _ => hbad, fun _ => ⟨_, hsub⟩⟩, fun _ h => absurd hbad h⟩

/-- Witness of C6 at `sub([10, 3, none])`, a none-terminated stack of integers, which
returns 0, and at the empty list `sub([none])`, which returns `-EINVAL`. -/
theorem ws_builtin_cmd_sub_invalid_iff_witness :
    (∃ out, ws_builtin_cmd_sub [int_ 10, int_ 3, none_] = some (0, out))
      ∧ (∃ out, ws_builtin_cmd_sub [none_] = some (-EINVAL, out)) :=
  ⟨(ws_builtin_cmd_sub_invalid_iff [int_ 10, int_ 3, none_]).2 (by decide)
      (by
        rintro (⟨x, hx, hxt⟩ | ⟨i, x, hi, hx, hxt, hfirst⟩)
        · cases hx
          exact hxt rfl
        · match i, hi, hx, hfirst with
          | 1, _, hx, _ =>
            cases hx
            exact hxt rfl
          | 2, _, _, hfirst => exact hfirst 2 (Nat.le_refl 2) rfl
          | n + 3, _, hx, _ => simp at hx),
   (ws_builtin_cmd_sub_invalid_iff [none_]).1.2
      (Or.inl ⟨none_, List.getElem?_cons_zero, by decide⟩)⟩

/-- C7 (`ws_builtin_cmd_div`): for every integer `a`, `div([a, 0, none])` fails with
the division-by-zero code `-EFAULT` (-14) and leaves every slot as it was: slot 0
still holds `a` and slot 1 still holds 0. -/
theorem ws_builtin_cmd_div_by_zero (a : Int) (rest : List ws_value_union) :
    ws_builtin_cmd_div (int_ a :: int_ 0 :: none_ :: rest)
        = some (-EFAULT, int_ a :: int_ 0 :: none_ :: rest)
      ∧ -EFAULT = -14
      ∧ ws_builtin_cmd_div [int_ 7, int_ 0, none_]
        = some (-14, [int_ 7, int_ 0, none_]) := by
  refine ⟨?_, rfl, by decide⟩
  simp [ws_builtin_cmd_div, ws_value_get_type, ws_value_int_get]

/-- C8 (`ws_builtin_cmd_div`): when slots 0 and 1 are integers and slot 2 is present,
of any kind other than none, `div` returns `-E2BIG` (-7), whatever the two integers
are, a zero divisor included; `div([7, 2, 1, none])` returns `-E2BIG`. -/
theorem ws_builtin_cmd_div_too_big (a b : Int) (x : ws_value_union)
    (rest : List ws_value_union) (hx : ws_value_get_type x ≠ WS_VALUE_TYPE_NONE) :
    ws_builtin_cmd_div (int_ a :: int_ b :: x :: rest)
        = some (-E2BIG, int_ a :: int_ b :: x :: rest)
      ∧ -E2BIG = -7
      ∧ ws_builtin_cmd_div [int_ 7, int_ 2, int_ 1, none_]
        = some (-7, [int_ 7, int_ 2, int_ 1, none_]) := by
  refine ⟨?_, rfl, by decide⟩
  have h0 : ws_value_get_type (int_ a) = WS_VALUE_TYPE_INT := rfl
  have h1 : ws_value_get_type (int_ b) = WS_VALUE_TYPE_INT := rfl
  simp [ws_builtin_cmd_div, h0, h1, hx]

/-- Witness of C8 at `div([7, 0, "x", none])`: a zero divisor and a string in
slot 2. -/
theorem ws_builtin_cmd_div_too_big_witness :
    ws_value_get_type (string_ "x") ≠ WS_VALUE_TYPE_NONE
      ∧ ws_builtin_cmd_div (int_ 7 :: int_ 0 :: string_ "x" :: [none_])
        = some (-E2BIG, int_ 7 :: int_ 0 :: string_ "x" :: [none_]) :=
  ⟨by decide, (ws_builtin_cmd_div_too_big 7 0 (string_ "x") [none_] (by decide)).1⟩

/-- C9 (`ws_builtin_cmd_div`): when slot 0 or slot 1 is not an integer (a non-integer
operand, a single operand followed by the terminator, an empty list), `div` returns
`-EINVAL` whatever follows; and `div` returns 0 only on a stack whose slots 0 and 1
are integers, whose slot 2 is none and whose slot 1 is not zero. -/
theorem ws_builtin_cmd_div_two_operands (args : List ws_value_union) :
    (((∃ x, args[0]? = some x ∧ ws_value_get_type x ≠ WS_VALUE_TYPE_INT) ∨
      (∃ y, args[1]? = some y ∧ ws_value_get_type y ≠ WS_VALUE_TYPE_INT)) →
        ws_builtin_cmd_div args = some (-EINVAL, args))
    ∧ (∀ out, ws_builtin_cmd_div args = some (0, out) →
        ∃ (a b : Int) (rest : List ws_value_union),
          args = int_ a :: int_ b :: none_ :: rest ∧ b ≠ 0) := by
  constructor
  · rintro (⟨x, hx, hxt⟩ | ⟨y, hy, hyt⟩)
    · cases args with
      | nil => simp at hx
      | cons a0 t =>
        simp only [List.getElem?_cons_zero, Option.some.injEq] at hx
        subst hx
        simp [ws_builtin_cmd_div, hxt]
    · rcases args with _ | ⟨a0, _ | ⟨a1, t⟩⟩
      · simp at hy
      · simp at hy
      · simp only [List.getElem?_cons_succ, List.getElem?_cons_zero,
          Option.some.injEq] at hy
        subst hy
        by_cases h0 : ws_value_get_type a0 = WS_VALUE_TYPE_INT
        · simp [ws_builtin_cmd_div, h0, hyt]
        · simp [ws_builtin_cmd_div, h0]
  · intro out h
    rcases args with _ | ⟨a0, _ | ⟨a1, _ | ⟨a2, t⟩⟩⟩
    · simp [ws_builtin_cmd_div] at h
    · by_cases h0 : ws_value_get_type a0 = WS_VALUE_TYPE_INT <;>
        simp [ws_builtin_cmd_div, h0, EINVAL] at h
    · by_cases h0 : ws_value_get_type a0 = WS_VALUE_TYPE_INT <;>
        by_cases h1 : ws_value_get_type a1 = WS_VALUE_TYPE_INT <;>
        simp [ws_builtin_cmd_div, h0, h1, EINVAL] at h
    · by_cases h0 : ws_value_get_type a0 = WS_VALUE_TYPE_INT
      · by_cases h1 : ws_value_get_type a1 = WS_VALUE_TYPE_INT
        · by_cases h2 : ws_value_get_type a2 = WS_VALUE_TYPE_NONE
          · obtain ⟨a, rfl⟩ := (ws_value_get_type_eq_int_iff a0).mp h0
            obtain ⟨b, rfl⟩ := (ws_value_get_type_eq_int_iff a1).mp h1
            have := (ws_value_get_type_eq_none_iff a2).mp h2
            subst this
            refine ⟨a, b, t, rfl, ?_⟩
            rintro rfl
            simp [ws_builtin_cmd_div, ws_value_get_type, ws_value_int_get, EFAULT] at h
          · simp [ws_builtin_cmd_div, h0, h1, h2, E2BIG] at h
        · simp [ws_builtin_cmd_div, h0, h1, EINVAL] at h
      · simp [ws_builtin_cmd_div, h0, EINVAL] at h

/-- Witness of C9: the single operand `div([7, none])` returns `-EINVAL`, and the
successful `div([7, 2, none])` has two integer slots, a none slot 2 and a non-zero
divisor. -/
theorem ws_builtin_cmd_div_two_operands_witness :
    ws_builtin_cmd_div [int_ 7, none_] = some (-EINVAL, [int_ 7, none_])
      ∧ ∃ (a b : Int) (rest : List ws_value_union),
          [int_ 7, int_ 2, none_] = int_ a :: int_ b :: none_ :: rest ∧ b ≠ 0 :=
  ⟨(ws_builtin_cmd_div_two_operands [int_ 7, none_]).1
      (Or.inr ⟨none_, rfl, by decide⟩),
   (ws_builtin_cmd_div_two_operands [int_ 7, int_ 2, none_]).2
      [int_ 3, int_ 2, none_] (by decide)⟩

/-- C10 (`src/command/binary.c`): each of the six bitwise commands `bnot`, `band`,
`bnand`, `bor`, `bnor` and `bxor` returns 0 on every argument stack, well-typed or
not, and leaves every slot of the stack as it was. -/
theorem ws_builtin_cmd_bitwise_no_effect (args : List ws_value_union) :
    ws_builtin_cmd_bnot args = some (0, args)
      ∧ ws_builtin_cmd_band args = some (0, args)
      ∧ ws_builtin_cmd_bnand args = some (0, args)
      ∧ ws_builtin_cmd_bor args = some (0, args)
      ∧ ws_builtin_cmd_bnor args = some (0, args)
      ∧ ws_builtin_cmd_bxor args = some (0, args) :=
  ⟨rfl, rfl, rfl, rfl, rfl, rfl⟩

/-! ## Sets: lookup, insertion and removal -/

theorem ws_set_get_eq_none_iff {α : Type} (cmp : α → α → Int) (self : ws_set α)
    (key : α) :
    ws_set_get cmp self key = none ↔ ∀ e ∈ self.elems, cmp e key ≠ 0 := by
  simp [ws_set_get, List.find?_eq_none]

theorem ws_set_insert_absent {α : Type} (cmp : α → α → Int) (self : ws_set α) (obj : α)
    (h : ∀ e ∈ self.elems, cmp e obj ≠ 0) :
    ws_set_insert cmp self obj = (ws_set_status.success, ⟨self.elems ++ [obj]⟩) := by
  have hg := (ws_set_get_eq_none_iff cmp self obj).mpr h
  simp [ws_set_insert, hg]

theorem ws_set_insert_present {α : Type} (cmp : α → α → Int) (self : ws_set α) (obj : α)
    (h : ∃ e ∈ self.elems, cmp e obj = 0) :
    ws_set_insert cmp self obj = (ws_set_status.already_present, self) := by
  unfold ws_set_insert
  cases hg : ws_set_get cmp self obj with
  | some e => rfl
  | none =>
    exfalso
    obtain ⟨e, he, hc⟩ := h
    exact (ws_set_get_eq_none_iff cmp self obj).mp hg e he hc

/-- Inserting, one after the other, objects none of which compares equal to an earlier
one or to a stored element stores them all, in order. -/
theorem ws_set_insert_foldl {α : Type} (cmp : α → α → Int) (objs : List α)
    (self : ws_set α)
    (h : (self.elems ++ objs).Pairwise (fun a b => cmp a b ≠ 0)) :
    objs.foldl (fun s o => (ws_set_insert cmp s o).2) self = ⟨self.elems ++ objs⟩ := by
  induction objs generalizing self with
  | nil => simp
  | cons o os ih =>
    have hsplit : (self.elems ++ [o] ++ os).Pairwise (fun a b => cmp a b ≠ 0) := by
      simpa using h
    have habs : ∀ e ∈ self.elems, cmp e o ≠ 0 := by
      intro e he
      have h1 := (List.pairwise_append.mp h).2.2
      exact h1 e he o (List.mem_cons_self o os)
    rw [List.foldl_cons, ws_set_insert_absent cmp self o habs]
    rw [ih ⟨self.elems ++ [o]⟩ hsplit]
    simp

/-- In a set without two elements that compare equal, under a compare callback for
which every object equals itself, looking up a stored object returns that object. -/
theorem ws_set_get_stored {α : Type} (cmp : α → α → Int) (hrefl : ∀ o, cmp o o = 0)
    (l : List α) (hpw : l.Pairwise (fun a b => cmp a b ≠ 0)) (o : α) (ho : o ∈ l) :
    ws_set_get cmp ⟨l⟩ o = some o := by
  induction l with
  | nil => cases ho
  | cons x t ih =>
    rw [List.pairwise_cons] at hpw
    by_cases hx : cmp x o = 0
    · have hxo : x = o := by
        rcases List.mem_cons.mp ho with h | h
        · exact h.symm
        · exact absurd hx (hpw.1 o h)
      subst hxo
      simp [ws_set_get, hx]
    · have hot : o ∈ t := by
        rcases List.mem_cons.mp ho with h | h
        · subst h
          exact absurd (hrefl o) hx
        · exact h
      have := ih hpw.2 hot
      simpa [ws_set_get, hx] using this

/-- The fixture of the test: whatever the addresses of the test objects, as long as
different objects have different addresses, every insert of `test_set_setup_sets`
returns 0 and `set_a` and `set_b` end up with the objects of odd and of even index. -/
theorem test_set_setup_sets_result (TEST_OBJS : Nat → Int)
    (hinj : Function.Injective TEST_OBJS) :
    test_set_setup_sets TEST_OBJS
      = some (⟨[13, 11, 9, 7, 5, 3, 1].map TEST_OBJS⟩,
              ⟨[14, 12, 10, 8, 6, 4, 2].map TEST_OBJS⟩) := by
  simp [test_set_setup_sets, test_set_setup_sets_loop, N_TEST_OBJS, ws_set_insert,
    ws_set_get, ws_set_new, compare_set_test_objs, signum, Int.sign_eq_zero_iff_zero,
    sub_eq_zero, hinj.eq_iff]

/-- C11 (`ws_set_insert`, `ws_set_cardinality`): the empty set has cardinality 0; an
insert of an object to which no stored element compares equal returns 0 and raises
the cardinality by one; an insert of an object to which a stored element compares
equal reports already-present and leaves the set as it was; inserting `n` objects none
of which compares equal to an earlier one into the empty set gives cardinality `n`;
inserting two objects that compare equal gives cardinality 1, the second insert
reporting already-present; and in the fixture of the test, where different objects
have different addresses, `set_a` and `set_b` both get cardinality
`N_TEST_OBJS / 2`, which is 7. -/
theorem ws_set_insert_cardinality {α : Type} (cmp : α → α → Int) (self : ws_set α)
    (obj : α) :
    ws_set_cardinality (ws_set_new : ws_set α) = 0
      ∧ ((∀ e ∈ self.elems, cmp e obj ≠ 0) →
          (ws_set_insert cmp self obj).1 = ws_set_status.success
            ∧ ws_set_cardinality (ws_set_insert cmp self obj).2
                = ws_set_cardinality self + 1)
      ∧ ((∃ e ∈ self.elems, cmp e obj = 0) →
          ws_set_insert cmp self obj = (ws_set_status.already_present, self))
      ∧ (∀ objs : List α, objs.Pairwise (fun a b => cmp a b ≠ 0) →
          ws_set_cardinality
              (objs.foldl (fun s o => (ws_set_insert cmp s o).2) ws_set_new)
            = objs.length)
      ∧ (∀ o1 o2 : α, cmp o1 o2 = 0 →
          (ws_set_insert cmp ws_set_new o1).1 = ws_set_status.success
            ∧ (ws_set_insert cmp (ws_set_insert cmp ws_set_new o1).2 o2).1
                = ws_set_status.already_present
            ∧ ws_set_cardinality
                (ws_set_insert cmp (ws_set_insert cmp ws_set_new o1).2 o2).2 = 1)
      ∧ (∀ TEST_OBJS : Nat → Int, Function.Injective TEST_OBJS →
          (test_set_setup_sets TEST_OBJS).map
              (fun sets => (ws_set_cardinality sets.1, ws_set_cardinality sets.2))
            = some (N_TEST_OBJS / 2, N_TEST_OBJS / 2)) := by
  refine ⟨rfl, ?_, ws_set_insert_present cmp self obj, ?_, ?_, ?_⟩
  rotate_right
  · intro TEST_OBJS hinj
    rw [test_set_setup_sets_result TEST_OBJS hinj]
    simp [ws_set_cardinality, N_TEST_OBJS]
  · intro h
    rw [ws_set_insert_absent cmp self obj h]
    simp [ws_set_cardinality]
  · intro objs hpw
    rw [ws_set_insert_foldl cmp objs ws_set_new (by simpa [ws_set_new] using hpw)]
    simp [ws_set_cardinality, ws_set_new]
  · intro o1 o2 h12
    have h1 : ws_set_insert cmp ws_set_new o1 = (ws_set_status.success, ⟨[o1]⟩) := by
      rw [ws_set_insert_absent cmp ws_set_new o1 (by simp [ws_set_new])]
      simp [ws_set_new]
    have h2 : ws_set_insert cmp ⟨[o1]⟩ o2 = (ws_set_status.already_present, ⟨[o1]⟩) :=
      ws_set_insert_present cmp ⟨[o1]⟩ o2 ⟨o1, by simp, h12⟩
    rw [h1]
    simp only [h2]
    simp [ws_set_cardinality]

/-- Witness of C11 on the fixture of the test: with the test objects at the addresses
1 to 14, the seven pairwise different objects of odd index give `set_a` the
cardinality 7, which is `N_TEST_OBJS / 2`; likewise `set_b`; and a second insert of an
object reports already-present. -/
theorem ws_set_insert_cardinality_witness :
    ws_set_cardinality
        ([13, 11, 9, 7, 5, 3, 1].foldl
          (fun s o => (ws_set_insert compare_set_test_objs s o).2) ws_set_new) = 7
      ∧ N_TEST_OBJS / 2 = 7
      ∧ (test_set_setup_sets (fun i => (i : Int))).map
          (fun sets => (ws_set_cardinality sets.1, ws_set_cardinality sets.2))
            = some (7, 7)
      ∧ ws_set_insert compare_set_test_objs ⟨[13, 11]⟩ 11
          = (ws_set_status.already_present, ⟨[13, 11]⟩) :=
  ⟨(ws_set_insert_cardinality compare_set_test_objs ws_set_new 0).2.2.2.1
      [13, 11, 9, 7, 5, 3, 1] (by decide),
   by decide, by decide,
   (ws_set_insert_cardinality compare_set_test_objs ⟨[13, 11]⟩ 11).2.2.1
      ⟨11, by decide, by decide⟩⟩

/-- C12 (`ws_set_insert`, `ws_set_get`): after inserting objects none of which
compares equal to an earlier one into the empty set (every insert returning 0),
`ws_set_get` with any of the inserted objects as key returns that very object, for all
of them once all inserts are done; and `ws_set_get` with a key to which no stored
element compares equal returns absent.  The compare callback makes every object equal
to itself, as `compare_set_test_objs` does. -/
theorem ws_set_insert_get {α : Type} (cmp : α → α → Int) (hrefl : ∀ o, cmp o o = 0)
    (objs : List α) (hpw : objs.Pairwise (fun a b => cmp a b ≠ 0)) :
    (∀ o ∈ objs,
        ws_set_get cmp (objs.foldl (fun s o => (ws_set_insert cmp s o).2) ws_set_new) o
          = some o)
      ∧ (∀ (done : List α) (o : α) (rest : List α), objs = done ++ o :: rest →
          ws_set_insert cmp
              (done.foldl (fun s o => (ws_set_insert cmp s o).2) ws_set_new) o
            = (ws_set_status.success, ⟨done ++ [o]⟩))
      ∧ (∀ (self : ws_set α) (key : α), (∀ e ∈ self.elems, cmp e key ≠ 0) →
          ws_set_get cmp self key = none)
      ∧ (∀ o1 o2 : Int, compare_set_test_objs o1 o2 = 0 ↔ o1 = o2) := by
  have hall : objs.foldl (fun s o => (ws_set_insert cmp s o).2) ws_set_new = ⟨objs⟩ := by
    rw [ws_set_insert_foldl cmp objs ws_set_new (by simpa [ws_set_new] using hpw)]
    simp [ws_set_new]
  refine ⟨?_, ?_, ?_, ?_⟩
  · intro o ho
    rw [hall]
    exact ws_set_get_stored cmp hrefl objs hpw o ho
  · intro done o rest hsplit
    subst hsplit
    have hdone : done.Pairwise (fun a b => cmp a b ≠ 0) :=
      (List.pairwise_append.mp hpw).1
    rw [ws_set_insert_foldl cmp done ws_set_new (by simpa [ws_set_new] using hdone)]
    have habs : ∀ e ∈ done, cmp e o ≠ 0 := fun e he =>
      (List.pairwise_append.mp hpw).2.2 e he o (List.mem_cons_self o rest)
    rw [ws_set_insert_absent cmp _ o (by simpa [ws_set_new] using habs)]
    simp [ws_set_new]
  · intro self key h
    exact (ws_set_get_eq_none_iff cmp self key).mpr h
  · intro o1 o2
    simp only [compare_set_test_objs, signum, Int.sign_eq_zero_iff_zero, sub_eq_zero]
    exact eq_comm

/-- Witness of C12 on objects of the test at the addresses 14, 13 and 12: after the
three inserts, the lookup of the object at 13 returns it. -/
theorem ws_set_insert_get_witness :
    ws_set_get compare_set_test_objs
        ([14, 13, 12].foldl (fun s o => (ws_set_insert compare_set_test_objs s o).2)
          ws_set_new) 13 = some 13 :=
  (ws_set_insert_get compare_set_test_objs (by intro o; simp [compare_set_test_objs, signum])
    [14, 13, 12] (by decide)).1 13 (by decide)

/-! ## Sets: the invariant kept by insertion and removal -/

theorem ws_set_new_pairwise {α : Type} (cmp : α → α → Int) :
    (ws_set_new : ws_set α).elems.Pairwise (fun a b => cmp a b ≠ 0) := by
  simp [ws_set_new]

theorem ws_set_insert_pairwise {α : Type} (cmp : α → α → Int) (self : ws_set α)
    (obj : α) (hwf : self.elems.Pairwise (fun a b => cmp a b ≠ 0)) :
    (ws_set_insert cmp self obj).2.elems.Pairwise (fun a b => cmp a b ≠ 0) := by
  unfold ws_set_insert
  cases hg : ws_set_get cmp self obj with
  | some e => exact hwf
  | none =>
    have habs := (ws_set_get_eq_none_iff cmp self obj).mp hg
    simp only [List.pairwise_append, List.pairwise_cons, List.mem_singleton]
    refine ⟨hwf, ⟨by simp, List.Pairwise.nil⟩, ?_⟩
    intro a ha b hb
    subst hb
    exact habs a ha

theorem ws_set_remove_pairwise {α : Type} (cmp : α → α → Int) (self : ws_set α)
    (key : α) (hwf : self.elems.Pairwise (fun a b => cmp a b ≠ 0)) :
    (ws_set_remove cmp self key).2.elems.Pairwise (fun a b => cmp a b ≠ 0) := by
  unfold ws_set_remove
  cases hg : ws_set_get cmp self key with
  | some e => exact hwf.sublist (List.eraseP_sublist _)
  | none => exact hwf

/-- Removing a stored object from a set without two elements that compare equal: the
elements split around the object, and what is left is the two parts. -/
theorem ws_set_remove_stored {α : Type} (cmp : α → α → Int) (hrefl : ∀ o, cmp o o = 0)
    (l : List α) (hpw : l.Pairwise (fun a b => cmp a b ≠ 0)) (obj : α) (hobj : obj ∈ l) :
    ∃ l1 l2, l = l1 ++ obj :: l2
      ∧ ws_set_remove cmp ⟨l⟩ obj = (ws_set_status.success, ⟨l1 ++ l2⟩) := by
  induction l with
  | nil => cases hobj
  | cons x t ih =>
    rw [List.pairwise_cons] at hpw
    by_cases hx : cmp x obj = 0
    · have hxo : x = obj := by
        rcases List.mem_cons.mp hobj with h | h
        · exact h.symm
        · exact absurd hx (hpw.1 obj h)
      subst hxo
      refine ⟨[], t, rfl, ?_⟩
      simp [ws_set_remove, ws_set_get, hx]
    · have hot : obj ∈ t := by
        rcases List.mem_cons.mp hobj with h | h
        · subst h
          exact absurd (hrefl obj) hx
        · exact h
      obtain ⟨l1, l2, hsplit, hrem⟩ := ih hpw.2 hot
      refine ⟨x :: l1, l2, by rw [hsplit]; rfl, ?_⟩
      have hget : ws_set_get cmp ⟨t⟩ obj = some obj :=
        ws_set_get_stored cmp hrefl t hpw.2 obj hot
      have hget2 : ws_set_get cmp ⟨x :: t⟩ obj = some obj := by
        simpa [ws_set_get, hx] using hget
      simp only [ws_set_remove, hget, hget2] at hrem ⊢
      simp only [Prod.mk.injEq, true_and, ws_set.mk.injEq] at hrem ⊢
      rw [List.eraseP_cons_of_neg (by simpa using hx), hrem]
      rfl

/-- C13 (`ws_set_remove`): in a set without two elements that compare equal (as
insertion and removal keep it), removing an object that was inserted returns 0; a
following `ws_set_get` with the same key returns absent; the other stored elements are
still returned by `ws_set_get`; and `ws_set_remove` with a key to which no stored
element compares equal reports not-found and leaves the set as it was.  The compare
callback makes every object equal to itself and is symmetric in reporting equality,
as `compare_set_test_objs` is. -/
theorem ws_set_remove_get {α : Type} (cmp : α → α → Int) (hrefl : ∀ o, cmp o o = 0)
    (hsymm : ∀ a b, cmp a b = 0 → cmp b a = 0) (self : ws_set α)
    (hwf : self.elems.Pairwise (fun a b => cmp a b ≠ 0)) (obj : α)
    (hobj : obj ∈ self.elems) :
    (ws_set_remove cmp self obj).1 = ws_set_status.success
      ∧ ws_set_get cmp (ws_set_remove cmp self obj).2 obj = none
      ∧ (∀ o ∈ self.elems, o ≠ obj →
          ws_set_get cmp (ws_set_remove cmp self obj).2 o = some o)
      ∧ ws_set_cardinality (ws_set_remove cmp self obj).2 + 1 = ws_set_cardinality self
      ∧ (∀ key : α, (∀ e ∈ self.elems, cmp e key ≠ 0) →
          ws_set_remove cmp self key = (ws_set_status.not_found, self)) := by
  obtain ⟨l⟩ := self
  obtain ⟨l1, l2, hsplit, hrem⟩ := ws_set_remove_stored cmp hrefl l hwf obj hobj
  simp only at hwf hobj
  have hpw12 : (l1 ++ l2).Pairwise (fun a b => cmp a b ≠ 0) := by
    rw [hsplit] at hwf
    exact hwf.sublist
      (List.Sublist.append (List.Sublist.refl l1) (List.sublist_cons_self obj l2))
  have hparts := List.pairwise_append.mp (hsplit ▸ hwf)
  have hleft : ∀ e ∈ l1, cmp e obj ≠ 0 := fun e he =>
    hparts.2.2 e he obj (List.mem_cons_self obj l2)
  have hright : ∀ e ∈ l2, cmp e obj ≠ 0 := fun e he hc =>
    (List.pairwise_cons.mp hparts.2.1).1 e he (hsymm e obj hc)
  rw [hrem]
  refine ⟨rfl, ?_, ?_, ?_, ?_⟩
  · rw [ws_set_get_eq_none_iff]
    intro e he
    rcases List.mem_append.mp he with h | h
    · exact hleft e h
    · exact hright e h
  · intro o ho hne
    apply ws_set_get_stored cmp hrefl (l1 ++ l2) hpw12 o
    rw [hsplit] at ho
    rcases List.mem_append.mp ho with h | h
    · exact List.mem_append_left _ h
    · rcases List.mem_cons.mp h with h | h
      · exact absurd h hne
      · exact List.mem_append_right _ h
  · simp only [ws_set_cardinality, hsplit, List.length_append, List.length_cons]
    omega
  · intro key hkey
    have hg := (ws_set_get_eq_none_iff cmp ⟨l⟩ key).mpr hkey
    simp [ws_set_remove, hg]

/-- Witness of C13 on the set of the test objects at the addresses 14, 13 and 12:
removing the object at 13 returns 0, after which it is absent and the object at 12
is still found. -/
theorem ws_set_remove_get_witness :
    (ws_set_remove compare_set_test_objs ⟨[14, 13, 12]⟩ 13).1 = ws_set_status.success
      ∧ ws_set_get compare_set_test_objs
          (ws_set_remove compare_set_test_objs ⟨[14, 13, 12]⟩ 13).2 13 = none
      ∧ ws_set_get compare_set_test_objs
          (ws_set_remove compare_set_test_objs ⟨[14, 13, 12]⟩ 13).2 12 = some 12 :=
  have h := ws_set_remove_get compare_set_test_objs
    (by intro o; simp [compare_set_test_objs, signum])
    (by
      intro a b hab
      simp only [compare_set_test_objs, signum, Int.sign_eq_zero_iff_zero,
        sub_eq_zero] at hab ⊢
      exact hab.symm)
    ⟨[14, 13, 12]⟩ (by decide) 13 (by decide)
  ⟨h.1, h.2.1, h.2.2.1 12 (by decide) (by decide)⟩

/-! ## Sets: selection and equality -/

/-- A scan whose processor never fails runs the processor on the accepted elements,
in order, and returns 0. -/
theorem ws_set_select_scan_filter {α σ : Type} (pred : α → Int)
    (proc : σ → α → Int × σ) (hproc : ∀ etc e, 0 ≤ (proc etc e).1) (l : List α)
    (etc : σ) :
    ws_set_select_scan pred proc l etc
      = (0, (l.filter (fun e => decide (pred e ≠ 0))).foldl
              (fun st e => (proc st e).2) etc) := by
  induction l generalizing etc with
  | nil => rfl
  | cons x t ih =>
    by_cases hx : pred x = 0
    · simp [ws_set_select_scan, hx, ih]
    · have hres : ¬ (proc etc x).1 < 0 := not_lt.mpr (hproc etc x)
      rw [ws_set_select_scan]
      simp only [ne_eq, hx, not_false_eq_true, if_true, hres, if_false]
      rw [ih]
      simp [hx]

theorem ws_set_is_subset_self {α : Type} (cmp : α → α → Int) (hrefl : ∀ o, cmp o o = 0)
    (self : ws_set α) : ws_set_is_subset cmp self self = true := by
  simp only [ws_set_is_subset, List.all_eq_true]
  intro e he
  cases hg : ws_set_get cmp self e with
  | some x => rfl
  | none => exact absurd (hrefl e) ((ws_set_get_eq_none_iff cmp self e).mp hg e he)

/-- A scan over two parts: a negative result in the first part is the result of the
whole scan; otherwise the scan goes on over the second part from the state reached. -/
theorem ws_set_select_scan_append {α σ : Type} (pred : α → Int)
    (proc : σ → α → Int × σ) (l1 l2 : List α) (etc : σ) :
    ws_set_select_scan pred proc (l1 ++ l2) etc
      = if (ws_set_select_scan pred proc l1 etc).1 < 0 then
          ws_set_select_scan pred proc l1 etc
        else ws_set_select_scan pred proc l2 (ws_set_select_scan pred proc l1 etc).2 := by
  induction l1 generalizing etc with
  | nil => simp [ws_set_select_scan]
  | cons x t ih =>
    by_cases hx : pred x = 0
    · simp only [List.cons_append, ws_set_select_scan, hx, ne_eq, not_true_eq_false,
        if_false]
      exact ih etc
    · by_cases hres : (proc etc x).1 < 0
      · simp [ws_set_select_scan, hx, hres]
      · simp only [List.cons_append, ws_set_select_scan, hx, ne_eq, not_false_eq_true,
          if_true, hres, if_false]
        exact ih (proc etc x).2

/-- A scan with a processor that records its calls and returns the code of the element:
when the accepted elements are `l1`, then `e`, then `l2`, no element of `l1` has a
negative code and `e` has one, the scan returns the code of `e` and the calls are
those on `l1` and on `e`. -/
theorem ws_set_select_scan_calls_abort {α : Type} (pred : α → Int) (code : α → Int)
    (l : List α) (calls l1 : List α) (e : α) (l2 : List α)
    (hacc : l.filter (fun x => decide (pred x ≠ 0)) = l1 ++ e :: l2)
    (hok : ∀ x ∈ l1, 0 ≤ code x) (hfail : code e < 0) :
    ws_set_select_scan pred (fun st x => (code x, st ++ [x])) l calls
      = (code e, calls ++ l1 ++ [e]) := by
  induction l generalizing calls l1 with
  | nil => simp at hacc
  | cons x t ih =>
    by_cases hx : pred x = 0
    · have hacc2 : t.filter (fun x => decide (pred x ≠ 0)) = l1 ++ e :: l2 := by
        simpa [List.filter_cons, hx] using hacc
      simp only [ws_set_select_scan, hx, ne_eq, not_true_eq_false, if_false]
      exact ih calls l1 hacc2 hok
    · have hacc2 : x :: t.filter (fun x => decide (pred x ≠ 0)) = l1 ++ e :: l2 := by
        simpa [List.filter_cons, hx] using hacc
      cases l1 with
      | nil =>
        simp only [List.nil_append, List.cons.injEq] at hacc2
        have hxe := hacc2.1
        subst hxe
        simp [ws_set_select_scan, hx, hfail]
      | cons y l1t =>
        simp only [List.cons_append, List.cons.injEq] at hacc2
        have hxy := hacc2.1
        subst hxy
        have hx0 : ¬ code x < 0 := not_lt.mpr (hok x (List.mem_cons_self x l1t))
        simp only [ws_set_select_scan, hx, ne_eq, not_false_eq_true, if_true, hx0,
          if_false]
        rw [ih (calls ++ [x]) l1t hacc2.2 (fun z hz => hok z (List.mem_cons_of_mem x hz))]
        simp

/-- C14, the claim as stated fails in its general part: on the set of the objects at
the addresses 1 and 2, with the predicate of the test, which accepts both, a
processor that records the call and fails stops the scan: `select` returns its
negative result and the processor was invoked on the first element only. -/
theorem ws_set_select_abort :
    ws_set_select (⟨[1, 2]⟩ : ws_set Int) predicate
        (fun calls e => (-1, calls ++ [e])) [] = (-1, [1])
      ∧ ([1, 2] : List Int).filter (fun e => decide (predicate e ≠ 0)) = [1, 2]
      ∧ (ws_set_select (⟨[1, 2]⟩ : ws_set Int) predicate
          (fun calls e => (-1, calls ++ [e])) []).2
        ≠ ([1, 2] : List Int).filter (fun e => decide (predicate e ≠ 0)) := by
  decide

/-- C14 as amended (`ws_set_select`, `ws_set_equal`): for every set `A` (without two
elements that compare equal, under a compare callback that makes every object equal
to itself), `select` on `A` with a predicate that accepts every element and a
processor that inserts the element into an initially empty set `S` returns 0 and
leaves `S` equal to `A`: `ws_set_equal(S, A)` returns 1, the cardinalities agree and
each is a subset of the other.  More generally `select` invokes the processor on the
elements of `A` for which the predicate is true, in the order of the scan: on exactly
those, returning 0, when no invocation returns a negative result; and when an
invocation returns a negative result, on those up to and including the first such
one, the scan being aborted there and that very result returned. -/
theorem ws_set_select_equal {α : Type} (cmp : α → α → Int) (hrefl : ∀ o, cmp o o = 0)
    (A : ws_set α) (hwf : A.elems.Pairwise (fun a b => cmp a b ≠ 0))
    (pred : α → Int) (hpred : ∀ e, pred e ≠ 0) :
    (ws_set_select A pred (fun S obj => (0, (ws_set_insert cmp S obj).2)) ws_set_new).1
        = 0
      ∧ ws_set_equal cmp
          (ws_set_select A pred (fun S obj => (0, (ws_set_insert cmp S obj).2))
            ws_set_new).2 A = 1
      ∧ ws_set_cardinality
          (ws_set_select A pred (fun S obj => (0, (ws_set_insert cmp S obj).2))
            ws_set_new).2 = ws_set_cardinality A
      ∧ ws_set_is_subset cmp
          (ws_set_select A pred (fun S obj => (0, (ws_set_insert cmp S obj).2))
            ws_set_new).2 A = true
      ∧ ws_set_is_subset cmp A
          (ws_set_select A pred (fun S obj => (0, (ws_set_insert cmp S obj).2))
            ws_set_new).2 = true
      ∧ (∀ (σ : Type) (any : α → Int) (proc : σ → α → Int × σ) (etc : σ),
          (∀ st e, 0 ≤ (proc st e).1) →
          ws_set_select A any proc etc
            = (0, (A.elems.filter (fun e => decide (any e ≠ 0))).foldl
                    (fun st e => (proc st e).2) etc))
      ∧ (∀ any : α → Int,
          ws_set_select A any (fun calls e => (0, calls ++ [e])) []
            = (0, A.elems.filter (fun e => decide (any e ≠ 0))))
      ∧ (∀ (σ : Type) (any : α → Int) (proc : σ → α → Int × σ) (etc st : σ)
          (l1 : List α) (e : α) (l2 : List α),
          A.elems = l1 ++ e :: l2 →
          ws_set_select ⟨l1⟩ any proc etc = (0, st) →
          any e ≠ 0 → (proc st e).1 < 0 →
          ws_set_select A any proc etc = proc st e)
      ∧ (∀ (any code : α → Int) (l1 : List α) (e : α) (l2 : List α),
          A.elems.filter (fun x => decide (any x ≠ 0)) = l1 ++ e :: l2 →
          (∀ x ∈ l1, 0 ≤ code x) → code e < 0 →
          ws_set_select A any (fun calls x => (code x, calls ++ [x])) []
            = (code e, l1 ++ [e])) := by
  have hsel : ws_set_select A pred (fun S obj => (0, (ws_set_insert cmp S obj).2))
      ws_set_new = (0, A) := by
    unfold ws_set_select
    rw [ws_set_select_scan_filter pred _ (fun _ _ => le_refl 0)]
    have hall : A.elems.filter (fun e => decide (pred e ≠ 0)) = A.elems := by
      rw [List.filter_eq_self]
      intro e _
      simpa using hpred e
    rw [hall]
    simp only
    rw [ws_set_insert_foldl cmp A.elems ws_set_new (by simpa [ws_set_new] using hwf)]
    simp [ws_set_new]
  rw [hsel]
  refine ⟨rfl, ?_, rfl, ws_set_is_subset_self cmp hrefl A,
    ws_set_is_subset_self cmp hrefl A, ?_, ?_, ?_, ?_⟩
  · simp [ws_set_equal, ws_set_is_subset_self cmp hrefl A]
  · intro σ any proc etc hproc
    exact ws_set_select_scan_filter any proc hproc A.elems etc
  · intro any
    unfold ws_set_select
    rw [ws_set_select_scan_filter any _ (fun _ _ => le_refl 0)]
    have hlog : ∀ (l calls : List α),
        l.foldl (fun st e => ((0 : Int), st ++ [e]).2) calls = calls ++ l := by
      intro l
      induction l with
      | nil => simp
      | cons x t ih =>
        intro calls
        rw [List.foldl_cons, ih]
        simp
    rw [hlog]
    simp
  · intro σ any proc etc st l1 e l2 hsplit hpre hacc hfail
    unfold ws_set_select at hpre ⊢
    simp only at hpre
    rw [hsplit, ws_set_select_scan_append, hpre]
    simp only [lt_self_iff_false, if_false]
    rw [ws_set_select_scan]
    simp [hacc, hfail]
  · intro any code l1 e l2 hfilter hok hfail
    unfold ws_set_select
    rw [ws_set_select_scan_calls_abort any code A.elems [] l1 e l2 hfilter hok hfail]
    simp

/-- Witness of amended C14 on `test_set_select`: `select` on `set_a` of the fixture
(the test objects of odd index, at the addresses 13 down to 1) with `predicate` and
`processor` of the test returns 0 and leaves in `set` a set for which
`ws_set_equal(set, set_a)` is 1; and on the same set a processor that records its
calls and returns -5 on the object at 9, 0 elsewhere, is invoked on the objects at 13,
11 and 9 and no further, and `select` returns -5. -/
theorem ws_set_select_equal_witness :
    ((ws_set_select (⟨[13, 11, 9, 7, 5, 3, 1]⟩ : ws_set Int) predicate processor
        ws_set_new).1 = 0
      ∧ ws_set_equal compare_set_test_objs
          (ws_set_select (⟨[13, 11, 9, 7, 5, 3, 1]⟩ : ws_set Int) predicate processor
            ws_set_new).2 ⟨[13, 11, 9, 7, 5, 3, 1]⟩ = 1)
      ∧ ws_set_select (⟨[13, 11, 9, 7, 5, 3, 1]⟩ : ws_set Int) predicate
          (fun calls x => ((fun o : Int => if o = 9 then -5 else 0) x, calls ++ [x])) []
        = ((fun o : Int => if o = 9 then -5 else 0) 9, [13, 11] ++ [9])
      ∧ ws_set_select (⟨[13, 11, 9, 7, 5, 3, 1]⟩ : ws_set Int) predicate
          (fun (count : Nat) (o : Int) => (if o = 9 then -5 else 0, count + 1)) 0
        = (fun (count : Nat) (o : Int) => ((if o = 9 then -5 else 0 : Int), count + 1))
            2 9 :=
  have h := ws_set_select_equal compare_set_test_objs
    (by intro o; simp [compare_set_test_objs, signum])
    ⟨[13, 11, 9, 7, 5, 3, 1]⟩ (by decide) predicate (by intro e; unfold predicate; decide)
  ⟨⟨h.1, h.2.1⟩,
   h.2.2.2.2.2.2.2.2 predicate (fun o => if o = 9 then -5 else 0) [13, 11] 9
      [7, 5, 3, 1] (by decide) (by decide) (by decide),
   h.2.2.2.2.2.2.2.1 Nat predicate
      (fun count o => (if o = 9 then -5 else 0, count + 1)) 0 2 [13, 11] 9 [7, 5, 3, 1]
      rfl (by decide) (by decide) (by decide)⟩

/-! ## Type descriptors -/

theorem ws_object_type_supertype_iterate_root (typestr : String) (n : Nat) :
    ws_object_type.supertype^[n] (ws_object_type.root typestr)
      = ws_object_type.root typestr := by
  induction n with
  | zero => rfl
  | succ k ih => rw [Function.iterate_succ_apply]; exact ih

/-- The walk along the supertype chain finds exactly the descriptors reached by
following supertype links. -/
theorem ws_object_type_is_or_extends_iff (t type : ws_object_type) :
    t.is_or_extends type = true ↔ ∃ n : Nat, ws_object_type.supertype^[n] t = type := by
  induction t with
  | root typestr =>
    simp only [ws_object_type.is_or_extends, decide_eq_true_eq]
    constructor
    · intro h
      exact ⟨0, h⟩
    · rintro ⟨n, hn⟩
      rw [ws_object_type_supertype_iterate_root] at hn
      exact hn
  | derived sup typestr ih =>
    simp only [ws_object_type.is_or_extends, Bool.or_eq_true, decide_eq_true_eq, ih]
    constructor
    · rintro (h | ⟨n, hn⟩)
      · exact ⟨0, h⟩
      · exact ⟨n + 1, by rw [Function.iterate_succ_apply]; exact hn⟩
    · rintro ⟨n, hn⟩
      cases n with
      | zero => exact Or.inl hn
      | succ k =>
        rw [Function.iterate_succ_apply] at hn
        exact Or.inr ⟨k, hn⟩

/-- C15 (`ws_object_is_instance_of`): an object is an instance of `type` exactly when
`type` is its own descriptor or one reached from it by following supertype links.  An
object of type `WS_OBJECT_TYPE_ID_NAMED` is an instance of `WS_OBJECT_TYPE_ID_NAMED`,
of its supertype `WS_OBJECT_TYPE_ID_STRING` and of every further ancestor up to the
root, and of no type that is not on that chain: with a string type that extends a root
object type, a named object is an instance of the root and not of the test type
`TEST_ID`. -/
theorem ws_object_is_instance_of_chain (self : ws_object) (type : ws_object_type)
    (WS_OBJECT_TYPE_ID_STRING : ws_object_type) (refcnt settings uuid : Nat) :
    (ws_object_is_instance_of self type = true
        ↔ ∃ n : Nat, ws_object_type.supertype^[n] self.id = type)
      ∧ ws_object_is_instance_of self self.id = true
      ∧ ws_object_is_instance_of
          ⟨WS_OBJECT_TYPE_ID_NAMED WS_OBJECT_TYPE_ID_STRING, refcnt, settings, uuid⟩
          (WS_OBJECT_TYPE_ID_NAMED WS_OBJECT_TYPE_ID_STRING) = true
      ∧ ws_object_is_instance_of
          ⟨WS_OBJECT_TYPE_ID_NAMED WS_OBJECT_TYPE_ID_STRING, refcnt, settings, uuid⟩
          WS_OBJECT_TYPE_ID_STRING = true
      ∧ (∀ n : Nat, ws_object_is_instance_of
          ⟨WS_OBJECT_TYPE_ID_NAMED WS_OBJECT_TYPE_ID_STRING, refcnt, settings, uuid⟩
          (ws_object_type.supertype^[n] WS_OBJECT_TYPE_ID_STRING) = true)
      ∧ (ws_object_is_instance_of
          ⟨WS_OBJECT_TYPE_ID_NAMED WS_OBJECT_TYPE_ID_STRING, refcnt, settings, uuid⟩
          type = false
        ↔ type ≠ WS_OBJECT_TYPE_ID_NAMED WS_OBJECT_TYPE_ID_STRING
            ∧ ∀ n : Nat, ws_object_type.supertype^[n] WS_OBJECT_TYPE_ID_STRING ≠ type)
      ∧ ws_object_is_instance_of
          ⟨WS_OBJECT_TYPE_ID_NAMED
            (ws_object_type.derived (ws_object_type.root "ws_object") "ws_string"),
            1, 0, 0⟩ (ws_object_type.root "ws_object") = true
      ∧ ws_object_is_instance_of
          ⟨WS_OBJECT_TYPE_ID_NAMED
            (ws_object_type.derived (ws_object_type.root "ws_object") "ws_string"),
            1, 0, 0⟩ (TEST_ID (ws_object_type.root "ws_object")) = false := by
  have hiff := ws_object_type_is_or_extends_iff
  refine ⟨hiff self.id type, (hiff self.id self.id).mpr ⟨0, rfl⟩,
    (hiff _ _).mpr ⟨0, rfl⟩, (hiff _ _).mpr ⟨1, rfl⟩, ?_, ?_, by decide, by decide⟩
  · intro n
    exact (hiff _ _).mpr ⟨n + 1, by rw [Function.iterate_succ_apply]; rfl⟩
  · simp only [ws_object_is_instance_of, WS_OBJECT_TYPE_ID_NAMED,
      ws_object_type.is_or_extends, Bool.or_eq_false_iff, decide_eq_false_iff_not]
    rw [← Bool.not_eq_true, hiff]
    constructor
    · rintro ⟨h1, h2⟩
      exact ⟨fun h => h1 h.symm, fun n hn => h2 ⟨n, hn⟩⟩
    · rintro ⟨h1, h2⟩
      exact ⟨fun h => h1 h.symm, fun ⟨n, hn⟩ => h2 n hn⟩

/-- C16 (`ws_error_reply`): for a reply constructed by `ws_error_reply_new` with code
`c`, description `d` and cause `s`, each of `d` and `s` possibly absent,
`ws_error_reply_get_code` returns `c`, and `ws_error_reply_get_description` and
`ws_error_reply_get_cause` never return an absent string: they return `d` and `s`
when supplied and the empty string otherwise. -/
theorem ws_error_reply_accessors (c : Nat) (d s : Option String) :
    (∃ reply, ws_error_reply_new true c d s = some reply
        ∧ ws_error_reply_get_code reply = c
        ∧ ws_error_reply_get_description reply = some (d.getD "")
        ∧ ws_error_reply_get_cause reply = some (s.getD ""))
      ∧ (∀ (allocated : Bool) (reply : ws_error_reply),
          ws_error_reply_new allocated c d s = some reply ↔
            allocated = true ∧ reply = ⟨c, some (d.getD ""), some (s.getD "")⟩)
      ∧ (∀ reply : ws_error_reply,
          ws_error_reply_get_description reply ≠ none
            ∧ ws_error_reply_get_cause reply ≠ none)
      ∧ (∃ reply, ws_error_reply_new true 22 none (some "div") = some reply
          ∧ ws_error_reply_get_code reply = 22
          ∧ ws_error_reply_get_description reply = some ""
          ∧ ws_error_reply_get_cause reply = some "div") := by
  refine ⟨⟨_, rfl, rfl, rfl, rfl⟩, ?_, ?_, ⟨_, rfl, rfl, rfl, rfl⟩⟩
  · intro allocated reply
    cases allocated <;> simp [ws_error_reply_new, eq_comm]
  · intro reply
    obtain ⟨code, description, cause⟩ := reply
    cases description <;> cases cause <;>
      simp [ws_error_reply_get_description, ws_error_reply_get_cause]

/-! ## The possible outcomes of the arithmetic commands -/

theorem ws_builtin_cmd_add_outcome (args : List ws_value_union) :
    ws_builtin_cmd_add args = none
      ∨ ws_builtin_cmd_add args = some (-EINVAL, args)
      ∨ ∃ (ops : List Int) (rest : List ws_value_union),
          args = ops.map int_ ++ none_ :: rest
            ∧ ws_builtin_cmd_add args
                = some (0, args.set 0 (int_ (wrap_intmax ops.sum))) := by
  rcases ints_prefix_split args with ⟨ops, rfl⟩ | ⟨ops, y, rest, rfl, hy⟩
  · left
    simp [ws_builtin_cmd_add, ITERATE_ARGS_TYPE_all_ints]
  · rw [ws_builtin_cmd_add_stop ops y rest hy]
    by_cases hyn : ws_value_get_type y = WS_VALUE_TYPE_NONE
    · right; right
      have hy0 := (ws_value_get_type_eq_none_iff y).mp hyn
      subst hy0
      refine ⟨ops, rest, rfl, ?_⟩
      have h := foldl_wrap_add ops 0
      rw [wrap_intmax_of_is_intmax (by decide)] at h
      simp [h, ws_value_get_type]
    · right; left
      rw [if_neg hyn]

theorem ws_builtin_cmd_mul_outcome (args : List ws_value_union) :
    ws_builtin_cmd_mul args = none
      ∨ ws_builtin_cmd_mul args = some (-EINVAL, args)
      ∨ ∃ (ops : List Int) (rest : List ws_value_union),
          args = ops.map int_ ++ none_ :: rest
            ∧ ws_builtin_cmd_mul args
                = some (0, args.set 0 (int_ (wrap_intmax ops.prod))) := by
  rcases ints_prefix_split args with ⟨ops, rfl⟩ | ⟨ops, y, rest, rfl, hy⟩
  · left
    simp [ws_builtin_cmd_mul, ITERATE_ARGS_TYPE_all_ints]
  · rw [ws_builtin_cmd_mul_stop ops y rest hy]
    by_cases hyn : ws_value_get_type y = WS_VALUE_TYPE_NONE
    · right; right
      have hy0 := (ws_value_get_type_eq_none_iff y).mp hyn
      subst hy0
      refine ⟨ops, rest, rfl, ?_⟩
      have h := foldl_wrap_mul ops 1
      rw [wrap_intmax_of_is_intmax (by decide)] at h
      simp [h, ws_value_get_type]
    · right; left
      rw [if_neg hyn]

theorem ws_builtin_cmd_sub_outcome (args : List ws_value_union) :
    ws_builtin_cmd_sub args = none
      ∨ ws_builtin_cmd_sub args = some (-EINVAL, args)
      ∨ ∃ (a : Int) (bs : List Int) (rest : List ws_value_union),
          args = int_ a :: (bs.map int_ ++ none_ :: rest)
            ∧ ws_builtin_cmd_sub args
                = some (0, args.set 0
                    (int_ (bs.foldl (fun sum val => wrap_intmax (sum - val)) a))) := by
  cases args with
  | nil => left; simp [ws_builtin_cmd_sub]
  | cons a0 t =>
    by_cases h0 : ws_value_get_type a0 = WS_VALUE_TYPE_INT
    · obtain ⟨a, rfl⟩ := (ws_value_get_type_eq_int_iff a0).mp h0
      rcases ints_prefix_split t with ⟨ops, rfl⟩ | ⟨ops, y, rest, rfl, hy⟩
      · left
        unfold ws_builtin_cmd_sub
        simp only [List.getElem?_cons_zero, h0, ne_eq, not_true_eq_false, if_false,
          List.drop_succ_cons, List.drop_zero, ITERATE_ARGS_TYPE_all_ints]
      · rw [ws_builtin_cmd_sub_stop a ops y rest hy]
        by_cases hyn : ws_value_get_type y = WS_VALUE_TYPE_NONE
        · right; right
          have hy0 := (ws_value_get_type_eq_none_iff y).mp hyn
          subst hy0
          exact ⟨a, ops, rest, rfl, by simp [ws_value_get_type]⟩
        · right; left
          rw [if_neg hyn]
    · right; left
      simp [ws_builtin_cmd_sub, h0]

theorem ws_builtin_cmd_div_outcome (args : List ws_value_union) :
    ws_builtin_cmd_div args = none
      ∨ (∃ code : Int, (code = -EINVAL ∨ code = -E2BIG ∨ code = -EFAULT)
          ∧ ws_builtin_cmd_div args = some (code, args))
      ∨ ∃ (a b : Int) (rest : List ws_value_union),
          args = int_ a :: int_ b :: none_ :: rest ∧ b ≠ 0
            ∧ is_intmax (Int.tdiv a b)
            ∧ ws_builtin_cmd_div args
                = some (0, args.set 0 (int_ (Int.tdiv a b))) := by
  rcases args with _ | ⟨a0, _ | ⟨a1, _ | ⟨a2, t⟩⟩⟩
  · left; simp [ws_builtin_cmd_div]
  · by_cases h0 : ws_value_get_type a0 = WS_VALUE_TYPE_INT
    · left; simp [ws_builtin_cmd_div, h0]
    · right; left
      exact ⟨-EINVAL, Or.inl rfl, by simp [ws_builtin_cmd_div, h0]⟩
  · by_cases h0 : ws_value_get_type a0 = WS_VALUE_TYPE_INT
    · by_cases h1 : ws_value_get_type a1 = WS_VALUE_TYPE_INT
      · left; simp [ws_builtin_cmd_div, h0, h1]
      · right; left
        exact ⟨-EINVAL, Or.inl rfl, by simp [ws_builtin_cmd_div, h0, h1]⟩
    · right; left
      exact ⟨-EINVAL, Or.inl rfl, by simp [ws_builtin_cmd_div, h0]⟩
  · by_cases h0 : ws_value_get_type a0 = WS_VALUE_TYPE_INT
    · by_cases h1 : ws_value_get_type a1 = WS_VALUE_TYPE_INT
      · by_cases h2 : ws_value_get_type a2 = WS_VALUE_TYPE_NONE
        · obtain ⟨a, rfl⟩ := (ws_value_get_type_eq_int_iff a0).mp h0
          obtain ⟨b, rfl⟩ := (ws_value_get_type_eq_int_iff a1).mp h1
          have := (ws_value_get_type_eq_none_iff a2).mp h2
          subst this
          by_cases hb : b = 0
          · right; left
            subst hb
            exact ⟨-EFAULT, Or.inr (Or.inr rfl),
              by simp [ws_builtin_cmd_div, ws_value_get_type, ws_value_int_get]⟩
          · by_cases hq : is_intmax (Int.tdiv a b)
            · right; right
              refine ⟨a, b, t, rfl, hb, hq, ?_⟩
              simp [ws_builtin_cmd_div, ws_value_get_type, ws_value_int_get, hb,
                intmax_div, hq, slot_update, ws_value_int_set]
            · left
              simp [ws_builtin_cmd_div, ws_value_get_type, ws_value_int_get, hb,
                intmax_div, hq]
        · right; left
          exact ⟨-E2BIG, Or.inr (Or.inl rfl), by simp [ws_builtin_cmd_div, h0, h1, h2]⟩
      · right; left
        exact ⟨-EINVAL, Or.inl rfl, by simp [ws_builtin_cmd_div, h0, h1]⟩
    · right; left
      exact ⟨-EINVAL, Or.inl rfl, by simp [ws_builtin_cmd_div, h0]⟩

/-- A command that returns a negative code after one of the outcomes "no result",
"error code with the stack untouched", "0" has left the stack untouched. -/
theorem outcome_negative_untouched {args out : List ws_value_union} {code : Int}
    {r : Option (Int × List ws_value_union)} (hr : r = some (code, out))
    (hneg : code < 0)
    (hout : r = none ∨ (∃ c : Int, (c = -EINVAL ∨ c = -E2BIG ∨ c = -EFAULT)
        ∧ r = some (c, args)) ∨ ∃ res, r = some (0, res)) :
    out = args ∧ (code = -EINVAL ∨ code = -E2BIG ∨ code = -EFAULT) := by
  rcases hout with h | ⟨c, hc, h⟩ | ⟨res, h⟩
  · rw [h] at hr
    exact Option.noConfusion hr
  · rw [h] at hr
    simp only [Option.some.injEq, Prod.mk.injEq] at hr
    exact ⟨hr.2.symm, hr.1 ▸ hc⟩
  · rw [h] at hr
    simp only [Option.some.injEq, Prod.mk.injEq] at hr
    omega

/-- C17 (atomicity of `add`, `sub`, `mul`, `div`): whenever one of the four commands
returns a negative code, which is `-EINVAL`, `-E2BIG` or `-EFAULT`, the stack it
leaves is the stack it was given: every slot, slot 0 included, has the kind and the
payload it had before the call. -/
theorem ws_builtin_cmd_arithmetic_atomic (args out : List ws_value_union) (code : Int)
    (hneg : code < 0)
    (hcall : ws_builtin_cmd_add args = some (code, out)
      ∨ ws_builtin_cmd_sub args = some (code, out)
      ∨ ws_builtin_cmd_mul args = some (code, out)
      ∨ ws_builtin_cmd_div args = some (code, out)) :
    out = args ∧ (code = -EINVAL ∨ code = -E2BIG ∨ code = -EFAULT) := by
  rcases hcall with h | h | h | h
  · refine outcome_negative_untouched h hneg ?_
    rcases ws_builtin_cmd_add_outcome args with h1 | h1 | ⟨_, _, _, h1⟩
    · exact Or.inl h1
    · exact Or.inr (Or.inl ⟨_, Or.inl rfl, h1⟩)
    · exact Or.inr (Or.inr ⟨_, h1⟩)
  · refine outcome_negative_untouched h hneg ?_
    rcases ws_builtin_cmd_sub_outcome args with h1 | h1 | ⟨_, _, _, _, h1⟩
    · exact Or.inl h1
    · exact Or.inr (Or.inl ⟨_, Or.inl rfl, h1⟩)
    · exact Or.inr (Or.inr ⟨_, h1⟩)
  · refine outcome_negative_untouched h hneg ?_
    rcases ws_builtin_cmd_mul_outcome args with h1 | h1 | ⟨_, _, _, h1⟩
    · exact Or.inl h1
    · exact Or.inr (Or.inl ⟨_, Or.inl rfl, h1⟩)
    · exact Or.inr (Or.inr ⟨_, h1⟩)
  · refine outcome_negative_untouched h hneg ?_
    rcases ws_builtin_cmd_div_outcome args with h1 | h1 | ⟨_, _, _, _, _, _, h1⟩
    · exact Or.inl h1
    · exact Or.inr (Or.inl h1)
    · exact Or.inr (Or.inr ⟨_, h1⟩)

/-- Witness of C17: `add([3, "x", none])` returns `-EINVAL` and `div([7, 0, none])`
returns `-EFAULT`, both negative and both with the stack untouched. -/
theorem ws_builtin_cmd_arithmetic_atomic_witness :
    (-EINVAL < 0
        ∧ ws_builtin_cmd_add [int_ 3, string_ "x", none_]
            = some (-EINVAL, [int_ 3, string_ "x", none_])
        ∧ -EFAULT < 0
        ∧ ws_builtin_cmd_div [int_ 7, int_ 0, none_]
            = some (-EFAULT, [int_ 7, int_ 0, none_]))
      ∧ ([int_ 3, string_ "x", none_] = [int_ 3, string_ "x", none_]
        ∧ (-EINVAL = -EINVAL ∨ -EINVAL = -E2BIG ∨ -EINVAL = -EFAULT))
      ∧ ([int_ 7, int_ 0, none_] = [int_ 7, int_ 0, none_]
        ∧ (-EFAULT = -EINVAL ∨ -EFAULT = -E2BIG ∨ -EFAULT = -EFAULT)) :=
  ⟨by decide,
   ws_builtin_cmd_arithmetic_atomic [int_ 3, string_ "x", none_]
      [int_ 3, string_ "x", none_] (-EINVAL) (by decide) (Or.inl (by decide)),
   ws_builtin_cmd_arithmetic_atomic [int_ 7, int_ 0, none_]
      [int_ 7, int_ 0, none_] (-EFAULT) (by decide)
      (Or.inr (Or.inr (Or.inr (by decide))))⟩

/-! ## Successful calls -/

theorem ws_builtin_cmd_add_success {args out : List ws_value_union}
    (h : ws_builtin_cmd_add args = some (0, out)) :
    ∃ (ops : List Int) (rest : List ws_value_union),
      args = ops.map int_ ++ none_ :: rest
        ∧ out = args.set 0 (int_ (wrap_intmax ops.sum)) := by
  rcases ws_builtin_cmd_add_outcome args with h1 | h1 | ⟨ops, rest, hshape, h1⟩
  · rw [h1] at h; exact Option.noConfusion h
  · rw [h1] at h; simp [EINVAL] at h
  · rw [h1] at h
    simp only [Option.some.injEq, Prod.mk.injEq, true_and] at h
    exact ⟨ops, rest, hshape, h.symm⟩

theorem ws_builtin_cmd_mul_success {args out : List ws_value_union}
    (h : ws_builtin_cmd_mul args = some (0, out)) :
    ∃ (ops : List Int) (rest : List ws_value_union),
      args = ops.map int_ ++ none_ :: rest
        ∧ out = args.set 0 (int_ (wrap_intmax ops.prod)) := by
  rcases ws_builtin_cmd_mul_outcome args with h1 | h1 | ⟨ops, rest, hshape, h1⟩
  · rw [h1] at h; exact Option.noConfusion h
  · rw [h1] at h; simp [EINVAL] at h
  · rw [h1] at h
    simp only [Option.some.injEq, Prod.mk.injEq, true_and] at h
    exact ⟨ops, rest, hshape, h.symm⟩

theorem ws_builtin_cmd_sub_success {args out : List ws_value_union}
    (h : ws_builtin_cmd_sub args = some (0, out)) :
    ∃ (a : Int) (bs : List Int) (rest : List ws_value_union),
      args = int_ a :: (bs.map int_ ++ none_ :: rest)
        ∧ out = args.set 0
            (int_ (bs.foldl (fun sum val => wrap_intmax (sum - val)) a)) := by
  rcases ws_builtin_cmd_sub_outcome args with h1 | h1 | ⟨a, bs, rest, hshape, h1⟩
  · rw [h1] at h; exact Option.noConfusion h
  · rw [h1] at h; simp [EINVAL] at h
  · rw [h1] at h
    simp only [Option.some.injEq, Prod.mk.injEq, true_and] at h
    exact ⟨a, bs, rest, hshape, h.symm⟩

theorem ws_builtin_cmd_div_success {args out : List ws_value_union}
    (h : ws_builtin_cmd_div args = some (0, out)) :
    ∃ (a b : Int) (rest : List ws_value_union),
      args = int_ a :: int_ b :: none_ :: rest ∧ b ≠ 0
        ∧ out = args.set 0 (int_ (Int.tdiv a b)) := by
  rcases ws_builtin_cmd_div_outcome args with
    h1 | ⟨c, hc, h1⟩ | ⟨a, b, rest, hshape, hb, _, h1⟩
  · rw [h1] at h; exact Option.noConfusion h
  · rw [h1] at h
    simp only [Option.some.injEq, Prod.mk.injEq] at h
    rcases hc with hc | hc | hc <;> rw [hc] at h <;> simp [EINVAL, E2BIG, EFAULT] at h
  · rw [h1] at h
    simp only [Option.some.injEq, Prod.mk.injEq, true_and] at h
    exact ⟨a, b, rest, hshape, hb, h.symm⟩

/-- Frame of a write to slot 0 of a stack that has a slot 0. -/
theorem set_zero_frame (args : List ws_value_union) (v : ws_value_union)
    (hne : args ≠ []) :
    (args.set 0 v)[0]? = some v
      ∧ (∀ i : Nat, 1 ≤ i → (args.set 0 v)[i]? = args[i]?)
      ∧ (args.set 0 v).length = args.length := by
  cases args with
  | nil => exact absurd rfl hne
  | cons a t =>
    refine ⟨by simp, ?_, by simp⟩
    intro i hi
    cases i with
    | zero => omega
    | succ j => simp

/-- C18 (frame of `add`, `sub`, `mul`, `div`): whenever one of the four commands
returns 0, slot 0 of the stack it leaves is an integer value and every slot at an
index of 1 or more is unchanged, the consumed operands included: after
`div([a, b, none])` slot 1 still holds `b` and slot 2 is still none.  So after `sub`
and `div`, and after `add` and `mul` on a list that is not empty, the terminator is
where it was; after `add` or `mul` on the empty list the result overwrites the
terminator in slot 0. -/
theorem ws_builtin_cmd_arithmetic_frame (args out : List ws_value_union) :
    ((ws_builtin_cmd_add args = some (0, out) ∨ ws_builtin_cmd_sub args = some (0, out)
        ∨ ws_builtin_cmd_mul args = some (0, out)
        ∨ ws_builtin_cmd_div args = some (0, out)) →
      (∃ r : Int, out[0]? = some (int_ r))
        ∧ (∀ i : Nat, 1 ≤ i → out[i]? = args[i]?)
        ∧ out.length = args.length)
    ∧ ((ws_builtin_cmd_sub args = some (0, out)
        ∨ ws_builtin_cmd_div args = some (0, out)) →
      ∃ k : Nat, 1 ≤ k ∧ args[k]? = some none_ ∧ out[k]? = some none_)
    ∧ ((ws_builtin_cmd_add args = some (0, out)
        ∨ ws_builtin_cmd_mul args = some (0, out)) →
      args[0]? ≠ some none_ →
      ∃ k : Nat, 1 ≤ k ∧ args[k]? = some none_ ∧ out[k]? = some none_)
    ∧ (∀ rest : List ws_value_union,
        ws_builtin_cmd_add (none_ :: rest) = some (0, int_ 0 :: rest)
          ∧ ws_builtin_cmd_mul (none_ :: rest) = some (0, int_ 1 :: rest))
    ∧ (∀ (a b : Int) (rest : List ws_value_union),
        ws_builtin_cmd_div (int_ a :: int_ b :: none_ :: rest) = some (0, out) →
          out[1]? = some (int_ b) ∧ out[2]? = some none_) := by
  have hints : ∀ (ops : List Int) (rest : List ws_value_union),
      ops.map int_ ++ none_ :: rest ≠ [] := by
    intro ops rest
    simp
  have hframe : ∀ v : ws_value_union, args ≠ [] → out = args.set 0 v →
      ∀ i : Nat, 1 ≤ i → out[i]? = args[i]? := by
    intro v hne hout
    rw [hout]
    exact (set_zero_frame args v hne).2.1
  refine ⟨?_, ?_, ?_, ?_, ?_⟩
  · rintro (h | h | h | h)
    · obtain ⟨ops, rest, hshape, hout⟩ := ws_builtin_cmd_add_success h
      have hne : args ≠ [] := hshape ▸ hints ops rest
      have hf := set_zero_frame args (int_ (wrap_intmax ops.sum)) hne
      rw [hout]
      exact ⟨⟨_, hf.1⟩, hf.2.1, hf.2.2⟩
    · obtain ⟨a, bs, rest, hshape, hout⟩ := ws_builtin_cmd_sub_success h
      have hne : args ≠ [] := by rw [hshape]; simp
      have hf := set_zero_frame args
        (int_ (bs.foldl (fun sum val => wrap_intmax (sum - val)) a)) hne
      rw [hout]
      exact ⟨⟨_, hf.1⟩, hf.2.1, hf.2.2⟩
    · obtain ⟨ops, rest, hshape, hout⟩ := ws_builtin_cmd_mul_success h
      have hne : args ≠ [] := hshape ▸ hints ops rest
      have hf := set_zero_frame args (int_ (wrap_intmax ops.prod)) hne
      rw [hout]
      exact ⟨⟨_, hf.1⟩, hf.2.1, hf.2.2⟩
    · obtain ⟨a, b, rest, hshape, _, hout⟩ := ws_builtin_cmd_div_success h
      have hne : args ≠ [] := by rw [hshape]; simp
      have hf := set_zero_frame args (int_ (Int.tdiv a b)) hne
      rw [hout]
      exact ⟨⟨_, hf.1⟩, hf.2.1, hf.2.2⟩
  · rintro (h | h)
    · obtain ⟨a, bs, rest, hshape, hout⟩ := ws_builtin_cmd_sub_success h
      have hne : args ≠ [] := by rw [hshape]; simp
      have hk : args[(a :: bs).length]? = some none_ := by
        rw [hshape]
        exact ints_prefix_stop (a :: bs) none_ rest
      refine ⟨(a :: bs).length, by simp, hk, ?_⟩
      rw [hframe _ hne hout _ (by simp), hk]
    · obtain ⟨a, b, rest, hshape, _, hout⟩ := ws_builtin_cmd_div_success h
      have hne : args ≠ [] := by rw [hshape]; simp
      have hk : args[2]? = some none_ := by rw [hshape]; simp
      refine ⟨2, by omega, hk, ?_⟩
      rw [hframe _ hne hout 2 (by omega), hk]
  · have key : ∀ (ops : List Int) (rest : List ws_value_union) (v : ws_value_union),
        args = ops.map int_ ++ none_ :: rest → out = args.set 0 v →
        args[0]? ≠ some none_ →
        ∃ k : Nat, 1 ≤ k ∧ args[k]? = some none_ ∧ out[k]? = some none_ := by
      intro ops rest v hshape hout h0
      have hne : args ≠ [] := hshape ▸ hints ops rest
      have hk : args[ops.length]? = some none_ := by
        rw [hshape]
        exact ints_prefix_stop ops none_ rest
      have hpos : 1 ≤ ops.length := by
        cases ops with
        | nil => exact absurd hk h0
        | cons o os => simp
      refine ⟨ops.length, hpos, hk, ?_⟩
      rw [hframe v hne hout _ hpos, hk]
    rintro (h | h) h0
    · obtain ⟨ops, rest, hshape, hout⟩ := ws_builtin_cmd_add_success h
      exact key ops rest _ hshape hout h0
    · obtain ⟨ops, rest, hshape, hout⟩ := ws_builtin_cmd_mul_success h
      exact key ops rest _ hshape hout h0
  · intro rest
    have ha := ws_builtin_cmd_add_stop [] none_ rest (by simp [ws_value_get_type])
    have hm := ws_builtin_cmd_mul_stop [] none_ rest (by simp [ws_value_get_type])
    simpa [ws_value_get_type] using And.intro ha hm
  · intro a b rest h
    obtain ⟨a1, b1, rest1, hshape, _, hout⟩ := ws_builtin_cmd_div_success h
    rw [hout]
    simp

/-- Witness of C18 at `div([7, 2, none])`, which returns 0 and leaves `[3, 2, none]`,
and at `add([none])`, which leaves `[0]`. -/
theorem ws_builtin_cmd_arithmetic_frame_witness :
    ws_builtin_cmd_div [int_ 7, int_ 2, none_] = some (0, [int_ 3, int_ 2, none_])
      ∧ ((∃ r : Int, [int_ 3, int_ 2, none_][0]? = some (int_ r))
        ∧ (∀ i : Nat, 1 ≤ i →
            [int_ 3, int_ 2, none_][i]? = [int_ 7, int_ 2, none_][i]?)
        ∧ [int_ 3, int_ 2, none_].length = [int_ 7, int_ 2, none_].length)
      ∧ (∃ k : Nat, 1 ≤ k ∧ [int_ 7, int_ 2, none_][k]? = some none_
          ∧ [int_ 3, int_ 2, none_][k]? = some none_)
      ∧ ws_builtin_cmd_add [none_] = some (0, [int_ 0]) :=
  have h := ws_builtin_cmd_arithmetic_frame [int_ 7, int_ 2, none_]
    [int_ 3, int_ 2, none_]
  ⟨by decide, h.1 (Or.inr (Or.inr (Or.inr (by decide)))),
   h.2.1 (Or.inr (by decide)), (h.2.2.2.1 []).1⟩

/-! ## What a call depends on -/

theorem ints_prefix_head (ops : List Int) (y : ws_value_union)
    (t : List ws_value_union) :
    (ops.map int_ ++ y :: t)[0]? = (ops.map int_ ++ [y])[0]? := by
  cases ops <;> simp

theorem ws_builtin_cmd_add_summary (ops : List Int) (y : ws_value_union)
    (t : List ws_value_union) (hy : ws_value_get_type y ≠ WS_VALUE_TYPE_INT) :
    (ws_builtin_cmd_add (ops.map int_ ++ y :: t)).map (fun res => (res.1, res.2[0]?))
      = if ws_value_get_type y = WS_VALUE_TYPE_NONE then
          some (0, some (int_ (ops.foldl (fun sum val => wrap_intmax (sum + val)) 0)))
        else some (-EINVAL, (ops.map int_ ++ [y])[0]?) := by
  rw [ws_builtin_cmd_add_stop ops y t hy]
  by_cases h : ws_value_get_type y = WS_VALUE_TYPE_NONE
  · simp only [h, if_true, Option.map_some']
    rw [(set_zero_frame _ _ (by simp)).1]
  · simp only [h, if_false, Option.map_some', ints_prefix_head ops y t]

theorem ws_builtin_cmd_mul_summary (ops : List Int) (y : ws_value_union)
    (t : List ws_value_union) (hy : ws_value_get_type y ≠ WS_VALUE_TYPE_INT) :
    (ws_builtin_cmd_mul (ops.map int_ ++ y :: t)).map (fun res => (res.1, res.2[0]?))
      = if ws_value_get_type y = WS_VALUE_TYPE_NONE then
          some (0, some (int_ (ops.foldl (fun prod val => wrap_intmax (prod * val)) 1)))
        else some (-EINVAL, (ops.map int_ ++ [y])[0]?) := by
  rw [ws_builtin_cmd_mul_stop ops y t hy]
  by_cases h : ws_value_get_type y = WS_VALUE_TYPE_NONE
  · simp only [h, if_true, Option.map_some']
    rw [(set_zero_frame _ _ (by simp)).1]
  · simp only [h, if_false, Option.map_some', ints_prefix_head ops y t]

theorem ws_builtin_cmd_sub_summary (a : Int) (bs : List Int) (y : ws_value_union)
    (t : List ws_value_union) (hy : ws_value_get_type y ≠ WS_VALUE_TYPE_INT) :
    (ws_builtin_cmd_sub (int_ a :: (bs.map int_ ++ y :: t))).map
        (fun res => (res.1, res.2[0]?))
      = if ws_value_get_type y = WS_VALUE_TYPE_NONE then
          some (0, some (int_ (bs.foldl (fun sum val => wrap_intmax (sum - val)) a)))
        else some (-EINVAL, some (int_ a)) := by
  rw [ws_builtin_cmd_sub_stop a bs y t hy]
  by_cases h : ws_value_get_type y = WS_VALUE_TYPE_NONE
  · simp [h]
  · simp [h]

/-- A stack that contains a none slot is a prefix of integers followed by a slot that
is not an integer, and the prefix and that slot are found without looking behind the
none slot. -/
theorem ints_prefix_split_none (p : List ws_value_union) :
    ∃ (ops : List Int) (y : ws_value_union),
      ws_value_get_type y ≠ WS_VALUE_TYPE_INT
        ∧ ∀ t : List ws_value_union, ∃ t1 : List ws_value_union,
            p ++ none_ :: t = ops.map int_ ++ y :: t1 := by
  rcases ints_prefix_split p with ⟨ops, rfl⟩ | ⟨ops, y, rest, rfl, hy⟩
  · exact ⟨ops, none_, by simp [ws_value_get_type], fun t => ⟨t, rfl⟩⟩
  · exact ⟨ops, y, hy, fun t => ⟨rest ++ none_ :: t, by simp⟩⟩

theorem ws_builtin_cmd_div_three (a0 a1 a2 : ws_value_union)
    (t : List ws_value_union) :
    (ws_builtin_cmd_div (a0 :: a1 :: a2 :: t)).map (fun res => (res.1, res.2[0]?))
        = (ws_builtin_cmd_div [a0, a1, a2]).map (fun res => (res.1, res.2[0]?))
      ∧ ((ws_builtin_cmd_div (a0 :: a1 :: a2 :: t)).isSome = true
          ∨ ∃ a b : Int, a0 = int_ a ∧ a1 = int_ b ∧ a2 = none_ ∧ b ≠ 0
              ∧ ¬ is_intmax (Int.tdiv a b)) := by
  by_cases h0 : ws_value_get_type a0 = WS_VALUE_TYPE_INT
  · by_cases h1 : ws_value_get_type a1 = WS_VALUE_TYPE_INT
    · by_cases h2 : ws_value_get_type a2 = WS_VALUE_TYPE_NONE
      · obtain ⟨a, rfl⟩ := (ws_value_get_type_eq_int_iff a0).mp h0
        obtain ⟨b, rfl⟩ := (ws_value_get_type_eq_int_iff a1).mp h1
        have := (ws_value_get_type_eq_none_iff a2).mp h2
        subst this
        by_cases hb : b = 0
        · simp [ws_builtin_cmd_div, ws_value_get_type, ws_value_int_get, hb]
        · by_cases hq : is_intmax (Int.tdiv a b)
          · simp [ws_builtin_cmd_div, ws_value_get_type, ws_value_int_get, hb,
              intmax_div, hq, slot_update, ws_value_int_set]
          · refine ⟨?_, Or.inr ⟨a, b, rfl, rfl, rfl, hb, hq⟩⟩
            simp [ws_builtin_cmd_div, ws_value_get_type, ws_value_int_get, hb,
              intmax_div, hq]
      · simp [ws_builtin_cmd_div, h0, h1, h2]
    · simp [ws_builtin_cmd_div, h0, h1]
  · simp [ws_builtin_cmd_div, h0]

/-- C19 (bounded reads of `add`, `sub`, `mul`, `div`): on a stack that contains a none
slot the commands read no slot behind the first none slot.  Cut right behind a none
slot, the stack still gives a result, no lookup failing (for `div` the only call
without a result has the three slots it reads and a quotient that is no `intmax_t`);
the return code and the resulting slot 0 are the same for two stacks that agree up to
and including a none slot; `div` reads slot 1 only when slot 0 is an integer and slot
2 only when slots 0 and 1 are integers, and `sub` scans from slot 1 only when slot 0
is an integer. -/
theorem ws_builtin_cmd_arithmetic_bounded_reads (p r1 r2 : List ws_value_union) :
    ((ws_builtin_cmd_add (p ++ [none_])).isSome = true
        ∧ (ws_builtin_cmd_sub (p ++ [none_])).isSome = true
        ∧ (ws_builtin_cmd_mul (p ++ [none_])).isSome = true
        ∧ ((ws_builtin_cmd_div (p ++ [none_])).isSome = true
            ∨ ∃ (a b : Int) (rest : List ws_value_union),
                p ++ [none_] = int_ a :: int_ b :: none_ :: rest ∧ b ≠ 0
                  ∧ ¬ is_intmax (Int.tdiv a b)))
      ∧ ((ws_builtin_cmd_add (p ++ none_ :: r1)).map (fun res => (res.1, res.2[0]?))
            = (ws_builtin_cmd_add (p ++ none_ :: r2)).map (fun res => (res.1, res.2[0]?))
        ∧ (ws_builtin_cmd_sub (p ++ none_ :: r1)).map (fun res => (res.1, res.2[0]?))
            = (ws_builtin_cmd_sub (p ++ none_ :: r2)).map (fun res => (res.1, res.2[0]?))
        ∧ (ws_builtin_cmd_mul (p ++ none_ :: r1)).map (fun res => (res.1, res.2[0]?))
            = (ws_builtin_cmd_mul (p ++ none_ :: r2)).map (fun res => (res.1, res.2[0]?))
        ∧ (ws_builtin_cmd_div (p ++ none_ :: r1)).map (fun res => (res.1, res.2[0]?))
            = (ws_builtin_cmd_div (p ++ none_ :: r2)).map
                (fun res => (res.1, res.2[0]?)))
      ∧ (∀ x : ws_value_union, ws_value_get_type x ≠ WS_VALUE_TYPE_INT →
          ws_builtin_cmd_div [x] = some (-EINVAL, [x])
            ∧ ws_builtin_cmd_sub [x] = some (-EINVAL, [x]))
      ∧ (∀ (a : Int) (y : ws_value_union), ws_value_get_type y ≠ WS_VALUE_TYPE_INT →
          ws_builtin_cmd_div [int_ a, y] = some (-EINVAL, [int_ a, y])) := by
  have hsum : ∀ t : List ws_value_union,
      (∃ s, (ws_builtin_cmd_add (p ++ none_ :: t)).map (fun res => (res.1, res.2[0]?))
          = some s
        ∧ ∀ t2 : List ws_value_union,
          (ws_builtin_cmd_add (p ++ none_ :: t2)).map (fun res => (res.1, res.2[0]?))
            = some s)
      ∧ (∃ s, (ws_builtin_cmd_mul (p ++ none_ :: t)).map (fun res => (res.1, res.2[0]?))
          = some s
        ∧ ∀ t2 : List ws_value_union,
          (ws_builtin_cmd_mul (p ++ none_ :: t2)).map (fun res => (res.1, res.2[0]?))
            = some s) := by
    intro t
    obtain ⟨ops, y, hy, hsplit⟩ := ints_prefix_split_none p
    constructor
    · refine ⟨if ws_value_get_type y = WS_VALUE_TYPE_NONE then
          (0, some (int_ (ops.foldl (fun sum val => wrap_intmax (sum + val)) 0)))
        else (-EINVAL, (ops.map int_ ++ [y])[0]?), ?_, ?_⟩
      · obtain ⟨t1, h1⟩ := hsplit t
        rw [h1, ws_builtin_cmd_add_summary ops y t1 hy]
        split <;> rfl
      · intro t2
        obtain ⟨t1, h1⟩ := hsplit t2
        rw [h1, ws_builtin_cmd_add_summary ops y t1 hy]
        split <;> rfl
    · refine ⟨if ws_value_get_type y = WS_VALUE_TYPE_NONE then
          (0, some (int_ (ops.foldl (fun prod val => wrap_intmax (prod * val)) 1)))
        else (-EINVAL, (ops.map int_ ++ [y])[0]?), ?_, ?_⟩
      · obtain ⟨t1, h1⟩ := hsplit t
        rw [h1, ws_builtin_cmd_mul_summary ops y t1 hy]
        split <;> rfl
      · intro t2
        obtain ⟨t1, h1⟩ := hsplit t2
        rw [h1, ws_builtin_cmd_mul_summary ops y t1 hy]
        split <;> rfl
  have hsub : ∃ s, ∀ t : List ws_value_union,
      (ws_builtin_cmd_sub (p ++ none_ :: t)).map (fun res => (res.1, res.2[0]?))
        = some s := by
    cases p with
    | nil =>
      exact ⟨(-EINVAL, some none_), fun t => by
        simp [ws_builtin_cmd_sub, ws_value_get_type]⟩
    | cons a0 q =>
      by_cases h0 : ws_value_get_type a0 = WS_VALUE_TYPE_INT
      · obtain ⟨a, rfl⟩ := (ws_value_get_type_eq_int_iff a0).mp h0
        obtain ⟨ops, y, hy, hsplit⟩ := ints_prefix_split_none q
        refine ⟨if ws_value_get_type y = WS_VALUE_TYPE_NONE then
            (0, some (int_ (ops.foldl (fun sum val => wrap_intmax (sum - val)) a)))
          else (-EINVAL, some (int_ a)), fun t => ?_⟩
        obtain ⟨t1, h1⟩ := hsplit t
        rw [List.cons_append, h1, ws_builtin_cmd_sub_summary a ops y t1 hy]
        split <;> rfl
      · exact ⟨(-EINVAL, some a0), fun t => by simp [ws_builtin_cmd_sub, h0]⟩
  have hdiv : ∀ t1 t2 : List ws_value_union,
      (ws_builtin_cmd_div (p ++ none_ :: t1)).map (fun res => (res.1, res.2[0]?))
        = (ws_builtin_cmd_div (p ++ none_ :: t2)).map
            (fun res => (res.1, res.2[0]?)) := by
    intro t1 t2
    rcases p with _ | ⟨a0, _ | ⟨a1, _ | ⟨a2, q⟩⟩⟩
    · simp [ws_builtin_cmd_div, ws_value_get_type]
    · by_cases h0 : ws_value_get_type a0 = WS_VALUE_TYPE_INT <;>
        simp [ws_builtin_cmd_div, h0, ws_value_get_type]
    · simp only [List.cons_append, List.nil_append]
      rw [(ws_builtin_cmd_div_three a0 a1 none_ t1).1,
        (ws_builtin_cmd_div_three a0 a1 none_ t2).1]
    · simp only [List.cons_append]
      rw [(ws_builtin_cmd_div_three a0 a1 a2 _).1,
        (ws_builtin_cmd_div_three a0 a1 a2 (q ++ none_ :: t2)).1]
  refine ⟨⟨?_, ?_, ?_, ?_⟩, ⟨?_, ?_, ?_, hdiv r1 r2⟩, ?_, ?_⟩
  · obtain ⟨s, hs, _⟩ := (hsum []).1
    cases hr : ws_builtin_cmd_add (p ++ [none_]) with
    | none => rw [hr] at hs; exact Option.noConfusion hs
    | some v => rfl
  · obtain ⟨s, hs⟩ := hsub
    have := hs []
    cases hr : ws_builtin_cmd_sub (p ++ [none_]) with
    | none => rw [hr] at this; exact Option.noConfusion this
    | some v => rfl
  · obtain ⟨s, hs, _⟩ := (hsum []).2
    cases hr : ws_builtin_cmd_mul (p ++ [none_]) with
    | none => rw [hr] at hs; exact Option.noConfusion hs
    | some v => rfl
  · rcases p with _ | ⟨a0, _ | ⟨a1, _ | ⟨a2, q⟩⟩⟩
    · left; simp [ws_builtin_cmd_div, ws_value_get_type]
    · left
      by_cases h0 : ws_value_get_type a0 = WS_VALUE_TYPE_INT <;>
        simp [ws_builtin_cmd_div, h0, ws_value_get_type]
    · rcases (ws_builtin_cmd_div_three a0 a1 none_ []).2 with h | ⟨a, b, ha, hb, _, hb0, hq⟩
      · exact Or.inl h
      · exact Or.inr ⟨a, b, [], by simp [ha, hb], hb0, hq⟩
    · rcases (ws_builtin_cmd_div_three a0 a1 a2 (q ++ [none_])).2 with
        h | ⟨a, b, ha, hb, h2, hb0, hq⟩
      · exact Or.inl h
      · exact Or.inr ⟨a, b, q ++ [none_], by simp [ha, hb, h2], hb0, hq⟩
  · obtain ⟨s, _, hs⟩ := (hsum []).1
    rw [hs r1, hs r2]
  · obtain ⟨s, hs⟩ := hsub
    rw [hs r1, hs r2]
  · obtain ⟨s, _, hs⟩ := (hsum []).2
    rw [hs r1, hs r2]
  · intro x hx
    simp [ws_builtin_cmd_div, ws_builtin_cmd_sub, hx]
  · intro a y hy
    have h0 : ws_value_get_type (int_ a) = WS_VALUE_TYPE_INT := rfl
    simp [ws_builtin_cmd_div, h0, hy]

/-- Witness of C19: `div` and `sub` on the one-slot stack `["x"]` return `-EINVAL`
without a look at slot 1, and `div` on `[7, "x"]` without a look at slot 2. -/
theorem ws_builtin_cmd_arithmetic_bounded_reads_witness :
    ws_value_get_type (string_ "x") ≠ WS_VALUE_TYPE_INT
      ∧ (ws_builtin_cmd_div [string_ "x"] = some (-EINVAL, [string_ "x"])
        ∧ ws_builtin_cmd_sub [string_ "x"] = some (-EINVAL, [string_ "x"]))
      ∧ ws_builtin_cmd_div [int_ 7, string_ "x"]
          = some (-EINVAL, [int_ 7, string_ "x"]) :=
  ⟨by decide,
   (ws_builtin_cmd_arithmetic_bounded_reads [] [] []).2.2.1 (string_ "x") (by decide),
   (ws_builtin_cmd_arithmetic_bounded_reads [] [] []).2.2.2 7 (string_ "x")
      (by decide)⟩

/-! ## Relations between the commands -/

theorem foldl_sub_eq_sub_sum (bs : List Int) (a : Int) :
    bs.foldl (fun acc b => acc - b) a = a - bs.sum := by
  induction bs generalizing a with
  | nil => simp
  | cons b t ih =>
    rw [List.foldl_cons, ih, List.sum_cons]
    omega

theorem wrap_intmax_sub_right (a b : Int) :
    wrap_intmax (a - wrap_intmax b) = wrap_intmax (a - b) := by
  unfold wrap_intmax
  omega

/-- C20 (`sub` against `add`; operand order of `add` and `mul`): for every `intmax_t`
value `a` and every none-terminated list `r` of integers, `add` on `r` and `sub` on
`a` followed by `r` both return 0, and the result of `sub` in slot 0 is `a` minus the
result of `add` in slot 0, in `intmax_t` wrap-around arithmetic; and the return code
and the result in slot 0 of `add` and of `mul` are the same for every permutation of
the integer operands. -/
theorem ws_builtin_cmd_sub_add_relation (a : Int) (ha : is_intmax a) (r : List Int)
    (rest : List ws_value_union) :
    (∃ s d : Int,
        (ws_builtin_cmd_add (r.map int_ ++ none_ :: rest)).map
            (fun res => (res.1, res.2[0]?)) = some (0, some (int_ s))
          ∧ (ws_builtin_cmd_sub (int_ a :: (r.map int_ ++ none_ :: rest))).map
              (fun res => (res.1, res.2[0]?)) = some (0, some (int_ d))
          ∧ d = wrap_intmax (a - s))
      ∧ (∀ (r2 : List Int) (rest2 : List ws_value_union), r.Perm r2 →
          (ws_builtin_cmd_add (r.map int_ ++ none_ :: rest)).map
              (fun res => (res.1, res.2[0]?))
            = (ws_builtin_cmd_add (r2.map int_ ++ none_ :: rest2)).map
                (fun res => (res.1, res.2[0]?))
          ∧ (ws_builtin_cmd_mul (r.map int_ ++ none_ :: rest)).map
              (fun res => (res.1, res.2[0]?))
            = (ws_builtin_cmd_mul (r2.map int_ ++ none_ :: rest2)).map
                (fun res => (res.1, res.2[0]?))) := by
  have hty : ws_value_get_type none_ ≠ WS_VALUE_TYPE_INT := by simp [ws_value_get_type]
  have htn : ws_value_get_type none_ = WS_VALUE_TYPE_NONE := rfl
  have hadd : ∀ (ops : List Int) (t : List ws_value_union),
      (ws_builtin_cmd_add (ops.map int_ ++ none_ :: t)).map
          (fun res => (res.1, res.2[0]?))
        = some (0, some (int_ (wrap_intmax ops.sum))) := by
    intro ops t
    rw [ws_builtin_cmd_add_summary ops none_ t hty, if_pos htn]
    have h := foldl_wrap_add ops 0
    rw [wrap_intmax_of_is_intmax (by decide)] at h
    simp [h]
  have hmul : ∀ (ops : List Int) (t : List ws_value_union),
      (ws_builtin_cmd_mul (ops.map int_ ++ none_ :: t)).map
          (fun res => (res.1, res.2[0]?))
        = some (0, some (int_ (wrap_intmax ops.prod))) := by
    intro ops t
    rw [ws_builtin_cmd_mul_summary ops none_ t hty, if_pos htn]
    have h := foldl_wrap_mul ops 1
    rw [wrap_intmax_of_is_intmax (by decide)] at h
    simp [h]
  refine ⟨⟨wrap_intmax r.sum, wrap_intmax (a - wrap_intmax r.sum), hadd r rest, ?_, rfl⟩,
    ?_⟩
  · rw [ws_builtin_cmd_sub_summary a r none_ rest hty, if_pos htn]
    have h := foldl_wrap_sub r a
    rw [wrap_intmax_of_is_intmax ha, foldl_sub_eq_sub_sum] at h
    rw [h, wrap_intmax_sub_right]
  · intro r2 rest2 hperm
    rw [hadd r rest, hadd r2 rest2, hmul r rest, hmul r2 rest2, hperm.sum_eq,
      hperm.prod_eq]
    exact ⟨rfl, rfl⟩

/-- Witness of C20: `sub([10, 3, 2, none])` leaves 5, which is 10 minus the 5 that
`add([3, 2, none])` leaves; and `add` and `mul` give the same on `[3, 2, none]` and on
`[2, 3, none]`. -/
theorem ws_builtin_cmd_sub_add_relation_witness :
    is_intmax 10
      ∧ (∃ s d : Int,
          (ws_builtin_cmd_add ([3, 2].map int_ ++ none_ :: [])).map
              (fun res => (res.1, res.2[0]?)) = some (0, some (int_ s))
            ∧ (ws_builtin_cmd_sub (int_ 10 :: ([3, 2].map int_ ++ none_ :: []))).map
                (fun res => (res.1, res.2[0]?)) = some (0, some (int_ d))
            ∧ d = wrap_intmax (10 - s))
      ∧ ((ws_builtin_cmd_add ([3, 2].map int_ ++ none_ :: [])).map
              (fun res => (res.1, res.2[0]?))
            = (ws_builtin_cmd_add ([2, 3].map int_ ++ none_ :: [])).map
                (fun res => (res.1, res.2[0]?))
          ∧ (ws_builtin_cmd_mul ([3, 2].map int_ ++ none_ :: [])).map
              (fun res => (res.1, res.2[0]?))
            = (ws_builtin_cmd_mul ([2, 3].map int_ ++ none_ :: [])).map
                (fun res => (res.1, res.2[0]?))) :=
  have h := ws_builtin_cmd_sub_add_relation 10 (by decide) [3, 2] []
  ⟨by decide, h.1, h.2 [2, 3] [] (List.Perm.swap 2 3 [])⟩

end Waysome
